import Mathlib

/-!
Shallow embedding of the aarch64 crate's recursive page-table mapper:
`src/paging/page_table.rs`, `src/paging/mapper/mod.rs`,
`src/paging/mapper/recursive_page_table.rs` and
`src/paging/memory_attribute.rs`, together with a model of the physical
memory holding the page tables and of the hardware 4-level
translation-table walk that the recursive-mapping trick relies on.

Machine integers are modelled as `Nat` with explicit masks; a page-table
entry is one 64-bit word.  Fallible operations return an explicit result
type; dereferencing a virtual address that the hardware walk cannot
resolve is the distinguished `fault` outcome.
-/

/-- Output address mask, bits 12 to 47 (`ADDR_MASK` in `page_table.rs`). -/
def ADDR_MASK : Nat := 0x0000fffffffff000

/-- Memory attribute fields mask (`MEMORY_ATTR_MASK` in `page_table.rs`):
shareability (bits 8 and 9) plus attribute index (bits 2 to 4). -/
def MEMORY_ATTR_MASK : Nat := (0b11 <<< 8) ||| (0b111 <<< 2)

/-- All 64 bits set; used to model bitwise not on `u64`. -/
def U64_ONES : Nat := 0xffffffffffffffff

/-- Bitwise complement on 64-bit words (`!x` on a Rust `u64`). -/
def u64not (x : Nat) : Nat := U64_ONES ^^^ x

/-- Other flags mask (`FLAGS_MASK = !(MEMORY_ATTR_MASK | ADDR_MASK)` in
`page_table.rs`). -/
def FLAGS_MASK : Nat := u64not (MEMORY_ATTR_MASK ||| ADDR_MASK)

namespace PageTableFlags

/-- Flag bit `VALID` (`1 << 0`). -/
def VALID : Nat := 1 <<< 0

/-- Flag bit `TABLE_OR_PAGE` (`1 << 1`): 0 = block, 1 = table or page. -/
def TABLE_OR_PAGE : Nat := 1 <<< 1

/-- Flag bit `NS` (`1 << 5`). -/
def NS : Nat := 1 <<< 5

/-- Flag bit `AP_EL0` (`1 << 6`). -/
def AP_EL0 : Nat := 1 <<< 6

/-- Flag bit `AP_RO` (`1 << 7`). -/
def AP_RO : Nat := 1 <<< 7

/-- Flag bit `AF` (`1 << 10`). -/
def AF : Nat := 1 <<< 10

/-- Flag bit `nG` (`1 << 11`). -/
def nG : Nat := 1 <<< 11

/-- Flag bit `DBM` (`1 << 51`). -/
def DBM : Nat := 1 <<< 51

/-- Flag bit `Contiguous` (`1 << 52`). -/
def Contiguous : Nat := 1 <<< 52

/-- Flag bit `PXN` (`1 << 53`). -/
def PXN : Nat := 1 <<< 53

/-- Flag bit `UXN` (`1 << 54`). -/
def UXN : Nat := 1 <<< 54

/-- Flag bit `WRITE` (`1 << 51`, shares the `DBM` bit). -/
def WRITE : Nat := 1 <<< 51

/-- Flag bit `DIRTY` (`1 << 55`). -/
def DIRTY : Nat := 1 <<< 55

/-- Flag bit `SWAPPED` (`1 << 56`). -/
def SWAPPED : Nat := 1 <<< 56

/-- Flag bit `WRITABLE_SHARED` (`1 << 57`). -/
def WRITABLE_SHARED : Nat := 1 <<< 57

/-- Flag bit `READONLY_SHARED` (`1 << 58`). -/
def READONLY_SHARED : Nat := 1 <<< 58

/-- Flag bit `PXNTable` (`1 << 59`). -/
def PXNTable : Nat := 1 <<< 59

/-- Flag bit `XNTable` (`1 << 60`). -/
def XNTable : Nat := 1 <<< 60

/-- Flag bit `APTable_nEL0` (`1 << 61`). -/
def APTable_nEL0 : Nat := 1 <<< 61

/-- Flag bit `APTable_RO` (`1 << 62`). -/
def APTable_RO : Nat := 1 <<< 62

/-- Flag bit `NSTable` (`1 << 63`). -/
def NSTable : Nat := 1 <<< 63

/-- The union of all declared flag bits (`PageTableFlags::all()` of the
`bitflags!` declaration); `from_bits_truncate` keeps exactly these bits. -/
def ALL : Nat :=
  VALID ||| TABLE_OR_PAGE ||| NS ||| AP_EL0 ||| AP_RO ||| AF ||| nG |||
  DBM ||| Contiguous ||| PXN ||| UXN ||| WRITE ||| DIRTY ||| SWAPPED |||
  WRITABLE_SHARED ||| READONLY_SHARED ||| PXNTable ||| XNTable |||
  APTable_nEL0 ||| APTable_RO ||| NSTable

/-- Bitflags `contains`: all bits of `b` are set in `a`. -/
def contains (a b : Nat) : Bool := a &&& b == b

/-- A flags value of the `bitflags!`-generated type carries only declared
bits; this is the typing invariant of `PageTableFlags`. -/
def wf (f : Nat) : Prop := f &&& ALL = f

/-- `PageTableFlags::default_table()`: `VALID | TABLE_OR_PAGE`. -/
def default_table : Nat := VALID ||| TABLE_OR_PAGE

/-- Modelled from the spec: `PageTableFlags::default()` is called by
`create_next_table` but its `Default` impl is not among the provided
sources; the spec says freshly created intermediate tables are installed
with the default table flags, i.e. VALID and TABLE_OR_PAGE set, so
`default` is taken to be `default_table`. -/
def default : Nat := default_table

end PageTableFlags

namespace MairNormal

/-- `MairType::INDEX` for `MairNormal` (`memory_attribute.rs`). -/
def INDEX : Nat := 0

/-- `MairNormal::attr_value()`: `SH::InnerShareable + AttrIndx.val(INDEX)`,
i.e. shareability `0b11` at bit 8 plus attribute index 0 at bit 2 — the
"normal cacheable" per-entry attribute bits. -/
def attr_value : Nat := (0b11 <<< 8) ||| (INDEX <<< 2)

end MairNormal

/-- A memory-attribute value (`PageTableAttribute`, a
`FieldValue<u64, MEMORY_ATTRIBUTE::Register>`) is represented by its value
word; values built from the `MEMORY_ATTRIBUTE` fields only carry bits of
`MEMORY_ATTR_MASK`, which is the typing invariant recorded here. -/
def PageTableAttributeWf (a : Nat) : Prop := a &&& MEMORY_ATTR_MASK = a

/-- The error returned by `PageTableEntry::frame` (`page_table.rs`). -/
inductive FrameError where
  | FrameNotPresent
  | HugeFrame
deriving DecidableEq, Repr

namespace PhysFrame

/-- Modelled from the spec: `PhysFrame<Size4KiB>` (src/paging/frame.rs is
not among the provided sources).  A 4KiB physical frame is represented by
its frame number; its start address is `frame number * 4096`. -/
def start_address (f : Nat) : Nat := f * 4096

/-- Modelled from the spec: `PhysFrame::containing_address` — the frame
containing a physical address (align the address down to 4KiB). -/
def containing_address (a : Nat) : Nat := a / 4096

/-- Modelled from the spec: `PhysFrame::from_start_address` — succeeds
exactly when the address is 4KiB-aligned. -/
def from_start_address (a : Nat) : Option Nat :=
  if a % 4096 = 0 then some (a / 4096) else none

/-- Modelled from the spec: a physical address must fit the architecture's
implemented physical address width (48 bits), so a valid 4KiB frame number
is below `2 ^ 36`. -/
def wf (f : Nat) : Prop := f < 2 ^ 36

end PhysFrame

/-- A 64-bit page table entry (`PageTableEntry` in `page_table.rs`). -/
structure PageTableEntry where
  entry : Nat
deriving DecidableEq, Repr

namespace PageTableEntry

/-- `PageTableEntry::new()`: an unused entry. -/
def new : PageTableEntry := ⟨0⟩

/-- `is_unused`: the entry is zero. -/
def is_unused (e : PageTableEntry) : Bool := e.entry == 0

/-- `flags()`: `PageTableFlags::from_bits_truncate(self.entry)` — keep the
declared flag bits. -/
def flags (e : PageTableEntry) : Nat := e.entry &&& PageTableFlags.ALL

/-- `addr()`: the output address, `self.entry & ADDR_MASK`. -/
def addr (e : PageTableEntry) : Nat := e.entry &&& ADDR_MASK

/-- `attr()`: the memory attribute fields,
`PageTableAttribute::new(MEMORY_ATTR_MASK, 0, self.entry)` whose value is
`self.entry & MEMORY_ATTR_MASK`. -/
def attr (e : PageTableEntry) : Nat := e.entry &&& MEMORY_ATTR_MASK

/-- `is_block()`: `!self.flags().contains(TABLE_OR_PAGE)`. -/
def is_block (e : PageTableEntry) : Bool :=
  ! PageTableFlags.contains e.flags PageTableFlags.TABLE_OR_PAGE

/-- `frame()`: the mapped physical frame; `FrameNotPresent` if VALID is
clear, `HugeFrame` if the entry is a block. -/
def frame (e : PageTableEntry) : Except FrameError Nat :=
  if ! PageTableFlags.contains e.flags PageTableFlags.VALID then
    .error .FrameNotPresent
  else if e.is_block then
    .error .HugeFrame
  else
    .ok (PhysFrame.containing_address e.addr)

/-- `set_addr(addr, flags, attr)`: `self.entry = addr | flags | attr`.  The
`debug_assert!(addr.is_aligned(4096))` precondition is modelled as the
`none` (halt) outcome. -/
def set_addr (a fl at' : Nat) : Option PageTableEntry :=
  if a % 4096 = 0 then some ⟨a ||| fl ||| at'⟩ else none

/-- `set_frame(frame, flags, attr)`: `set_addr(frame.start_address(), ...)`
after `debug_assert!(flags.contains(TABLE_OR_PAGE))`, the assert modelled
as the `none` (halt) outcome. -/
def set_frame (f fl at' : Nat) : Option PageTableEntry :=
  if PageTableFlags.contains fl PageTableFlags.TABLE_OR_PAGE then
    set_addr (PhysFrame.start_address f) fl at'
  else none

/-- `set_flags(flags)`: `self.entry = (self.entry & !FLAGS_MASK) | flags.bits()`. -/
def set_flags (e : PageTableEntry) (fl : Nat) : PageTableEntry :=
  ⟨(e.entry &&& u64not FLAGS_MASK) ||| fl⟩

/-- `set_attr(attr)`: `self.entry = (self.entry & !MEMORY_ATTR_MASK) | attr.value`. -/
def set_attr (e : PageTableEntry) (a : Nat) : PageTableEntry :=
  ⟨(e.entry &&& u64not MEMORY_ATTR_MASK) ||| a⟩

end PageTableEntry

/-- A page table: 512 contiguous entries (`PageTable` in `page_table.rs`). -/
def PageTable := Fin 512 → PageTableEntry

/-- `PageTable::zero()` produces this table: all entries unused. -/
def zeroedTable : PageTable := fun _ => ⟨0⟩

/-- Modelled from the spec: a 4KiB virtual page, given by its four 9-bit
page-table indices (bits 39 to 47, 30 to 38, 21 to 29 and 12 to 20 of the
virtual address).  `Page<Size4KiB>` and its index accessors live in
src/paging/page.rs, which is not among the provided sources; the spec's
addressing description fixes this representation.  `i4` is `p4_index()`
(the root-level index) down to `i1` for `p1_index()`. -/
structure Page4K where
  i4 : Fin 512
  i3 : Fin 512
  i2 : Fin 512
  i1 : Fin 512
deriving DecidableEq, Repr

/-- Modelled from the spec: `Page::from_page_table_indices(va_range, a, b, c, d)`
builds the page with root-level index `a` down to leaf index `d` (the
`va_range` tag selects the high half of the address space and does not
affect the indices). -/
def from_page_table_indices (a b c d : Fin 512) : Page4K := ⟨a, b, c, d⟩

/-- A recursive page table handle (`RecursivePageTable` in
`recursive_page_table.rs`): holds the index of the recursively mapped
entry of the root table. -/
structure RecursivePageTable where
  recursive_index : Fin 512
deriving DecidableEq, Repr

namespace RecursivePageTable

/-- `p4_page`: the virtual page of the root table, indices (R, R, R, R). -/
def p4_page (self : RecursivePageTable) (_page : Page4K) : Page4K :=
  from_page_table_indices self.recursive_index self.recursive_index
    self.recursive_index self.recursive_index

/-- `p3_page`: the virtual page of the level-3 table, indices (R, R, R, i4). -/
def p3_page (self : RecursivePageTable) (page : Page4K) : Page4K :=
  from_page_table_indices self.recursive_index self.recursive_index
    self.recursive_index page.i4

/-- `p2_page`: the virtual page of the level-2 table, indices (R, R, i4, i3). -/
def p2_page (self : RecursivePageTable) (page : Page4K) : Page4K :=
  from_page_table_indices self.recursive_index self.recursive_index
    page.i4 page.i3

/-- `p1_page`: the virtual page of the level-1 table, indices (R, i4, i3, i2). -/
def p1_page (self : RecursivePageTable) (page : Page4K) : Page4K :=
  from_page_table_indices self.recursive_index page.i4 page.i3 page.i2

end RecursivePageTable

/-- Modelled from the spec: the physical memory holding the page tables
and the translation-table base.  `mem` maps a physical frame number to the
512-entry page table stored in that frame; `root` is the frame holding the
level-4 (root) table. -/
structure Machine where
  mem : Nat → PageTable
  root : Nat

namespace Machine

/-- Store entry value `e` at index `i` of the table in frame `f`. -/
def writeE (m : Machine) (f : Nat) (i : Fin 512) (e : PageTableEntry) : Machine :=
  ⟨fun g => if g = f then (fun j => if j = i then e else m.mem f j) else m.mem g,
   m.root⟩

/-- Overwrite the whole table in frame `f` with zeroes (`PageTable::zero`). -/
def zeroT (m : Machine) (f : Nat) : Machine :=
  ⟨fun g => if g = f then zeroedTable else m.mem g, m.root⟩

end Machine

/-- How the hardware walker classifies one descriptor: invalid (VALID
clear), block (VALID set, TABLE_OR_PAGE clear; carries the output
address), or table/page (carries the next-level frame number). -/
inductive EntryKind where
  | invalid
  | block (base : Nat)
  | table (f : Nat)
deriving DecidableEq, Repr

/-- Classify one descriptor the way the hardware walker does. -/
def entryKind (e : PageTableEntry) : EntryKind :=
  if PageTableFlags.contains e.flags PageTableFlags.VALID = false then .invalid
  else if e.is_block = true then .block e.addr
  else .table (PhysFrame.containing_address e.addr)

/-- Modelled from the spec: the AArch64 4-level translation-table walk with
a 4KiB granule, resolving a virtual 4KiB page to the physical frame
backing it.  Level-0 descriptors must be tables; level-1 and level-2
descriptors may be 1GiB / 2MiB blocks; level-3 descriptors must be page
descriptors (a level-3 descriptor with TABLE_OR_PAGE clear is invalid).
`none` is a translation fault. -/
def Machine.resolve (m : Machine) (p : Page4K) : Option Nat :=
  match entryKind (m.mem m.root p.i4) with
  | .invalid => none
  | .block _ => none
  | .table t3 =>
    match entryKind (m.mem t3 p.i3) with
    | .invalid => none
    | .block b => some (b / 2 ^ 30 * 2 ^ 18 + p.i2.val * 512 + p.i1.val)
    | .table t2 =>
      match entryKind (m.mem t2 p.i2) with
      | .invalid => none
      | .block b => some (b / 2 ^ 21 * 2 ^ 9 + p.i1.val)
      | .table t1 =>
        match entryKind (m.mem t1 p.i1) with
        | .invalid => none
        | .block _ => none
        | .table f => some f

/-- `MapToError` (`mapper/mod.rs`). -/
inductive MapToError where
  | FrameAllocationFailed
  | ParentEntryHugePage
  | PageAlreadyMapped
deriving DecidableEq, Repr

/-- `EntryGetError` (`mapper/mod.rs`). -/
inductive EntryGetError where
  | PageNotMapped
  | ParentEntryHugePage
deriving DecidableEq, Repr

/-- `UnmapError` (`mapper/mod.rs`). -/
inductive UnmapError where
  | ParentEntryHugePage
  | PageNotMapped
  | InvalidFrameAddress (a : Nat)
deriving DecidableEq, Repr

/-- `TranslateError` (`mapper/mod.rs`). -/
inductive TranslateError where
  | PageNotMapped
  | ParentEntryHugePage
  | InvalidFrameAddress (a : Nat)
deriving DecidableEq, Repr

/-- Outcome of an operation: a value, a typed error, or a hardware fault /
halt (a load or store through an unresolvable virtual address, or a
tripped `debug_assert!`). -/
inductive PResult (ε α : Type) where
  | ok (a : α)
  | err (e : ε)
  | fault
deriving DecidableEq, Repr

/-- `From<EntryGetError> for TranslateError` (`mapper/mod.rs`). -/
def entryGetToTranslate : EntryGetError → TranslateError
  | .PageNotMapped => .PageNotMapped
  | .ParentEntryHugePage => .ParentEntryHugePage

/-- The `map_err` closure of `unmap`: `FrameNotPresent` becomes
`PageNotMapped` and `HugeFrame` becomes `ParentEntryHugePage`. -/
def frameErrorToUnmap : FrameError → UnmapError
  | .FrameNotPresent => .PageNotMapped
  | .HugeFrame => .ParentEntryHugePage

/-- `RecursivePageTable::create_next_table` (`recursive_page_table.rs`).
`parent` is the physical frame of the table holding the entry — the Rust
`&mut PageTableEntry` argument was produced by the caller dereferencing
the previous level's recursive address — `idx` its index, and
`next_table_page` the recursive virtual page of the next-level table.
The allocator is the list of frames it will hand out in order.  If the
entry is unused, a frame is taken, installed with `PageTableFlags::default()`
and `MairNormal::attr_value()`, and the next table (reached through
`next_table_page`, resolved after the install as the hardware does) is
zeroed; the `dsb ishst` barrier has no observable effect in this
single-walker model.  A block entry gives `ParentEntryHugePage`. -/
def create_next_table (m : Machine) (parent : Nat) (idx : Fin 512)
    (next_table_page : Page4K) (allocator : List Nat) :
    Machine × List Nat × PResult MapToError Nat :=
  let e := m.mem parent idx
  if e.is_unused then
    match allocator with
    | [] => (m, [], .err .FrameAllocationFailed)
    | f :: rest =>
      match PageTableEntry.set_frame f PageTableFlags.default MairNormal.attr_value with
      | none => (m, rest, .fault)
      | some e' =>
        let m1 := m.writeE parent idx e'
        if e'.is_block then (m1, rest, .err .ParentEntryHugePage)
        else
          match m1.resolve next_table_page with
          | none => (m1, rest, .fault)
          | some fnext => ((m1.zeroT fnext), rest, .ok fnext)
  else
    if e.is_block then (m, allocator, .err .ParentEntryHugePage)
    else
      match m.resolve next_table_page with
      | none => (m, allocator, .fault)
      | some fnext => (m, allocator, .ok fnext)

/-- `Mapper<Size4KiB>::map_to` for `RecursivePageTable`
(`recursive_page_table.rs`): walk root to level 1 creating missing tables,
then install the leaf descriptor unless the leaf is already in use.  On
success the flush token (carrying the page) is returned. -/
def map_to (self : RecursivePageTable) (page : Page4K) (frame : Nat)
    (fl at' : Nat) (m : Machine) (allocator : List Nat) :
    Machine × List Nat × PResult MapToError Page4K :=
  match m.resolve (self.p4_page page) with
  | none => (m, allocator, .fault)
  | some p4 =>
    let r3 := create_next_table m p4 page.i4 (self.p3_page page) allocator
    match r3.2.2 with
    | .err e => (r3.1, r3.2.1, .err e)
    | .fault => (r3.1, r3.2.1, .fault)
    | .ok p3 =>
      let r2 := create_next_table r3.1 p3 page.i3 (self.p2_page page) r3.2.1
      match r2.2.2 with
      | .err e => (r2.1, r2.2.1, .err e)
      | .fault => (r2.1, r2.2.1, .fault)
      | .ok p2 =>
        let r1 := create_next_table r2.1 p2 page.i2 (self.p1_page page) r2.2.1
        match r1.2.2 with
        | .err e => (r1.1, r1.2.1, .err e)
        | .fault => (r1.1, r1.2.1, .fault)
        | .ok p1 =>
          if (r1.1.mem p1 page.i1).is_unused = false then
            (r1.1, r1.2.1, .err .PageAlreadyMapped)
          else
            match PageTableEntry.set_frame frame fl at' with
            | none => (r1.1, r1.2.1, .fault)
            | some e' => (r1.1.writeE p1 page.i1 e', r1.2.1, .ok page)

/-- `Mapper<Size4KiB>::get_entry` for `RecursivePageTable`
(`recursive_page_table.rs`): read-only walk, `PageNotMapped` at the first
unused entry of levels 4, 3 and 2; the final level-1 entry is returned
without further checks. -/
def get_entry (self : RecursivePageTable) (page : Page4K) (m : Machine) :
    PResult EntryGetError PageTableEntry :=
  match m.resolve (self.p4_page page) with
  | none => .fault
  | some p4 =>
    if (m.mem p4 page.i4).is_unused then .err .PageNotMapped
    else
      match m.resolve (self.p3_page page) with
      | none => .fault
      | some p3 =>
        if (m.mem p3 page.i3).is_unused then .err .PageNotMapped
        else
          match m.resolve (self.p2_page page) with
          | none => .fault
          | some p2 =>
            if (m.mem p2 page.i2).is_unused then .err .PageNotMapped
            else
              match m.resolve (self.p1_page page) with
              | none => .fault
              | some p1 => .ok (m.mem p1 page.i1)

/-- `Mapper::translate_page` (default method, `mapper/mod.rs`): `get_entry`,
then `PageNotMapped` on an unused entry, else
`PhysFrame::from_start_address(entry.addr())`. -/
def translate_page (self : RecursivePageTable) (page : Page4K) (m : Machine) :
    PResult TranslateError Nat :=
  match get_entry self page m with
  | .fault => .fault
  | .err e => .err (entryGetToTranslate e)
  | .ok entry =>
    if entry.is_unused then .err .PageNotMapped
    else
      match PhysFrame.from_start_address entry.addr with
      | some f => .ok f
      | none => .err (.InvalidFrameAddress entry.addr)

/-- `Mapper<Size4KiB>::unmap` for `RecursivePageTable`
(`recursive_page_table.rs`): at each level validate the entry through
`frame()` (mapping `FrameNotPresent` to `PageNotMapped` and `HugeFrame`
to `ParentEntryHugePage`); at the leaf extract the frame, clear the
entry, and return the frame with the flush token. -/
def unmap (self : RecursivePageTable) (page : Page4K) (m : Machine) :
    Machine × PResult UnmapError (Nat × Page4K) :=
  match m.resolve (self.p4_page page) with
  | none => (m, .fault)
  | some p4 =>
    match (m.mem p4 page.i4).frame with
    | .error e => (m, .err (frameErrorToUnmap e))
    | .ok _ =>
      match m.resolve (self.p3_page page) with
      | none => (m, .fault)
      | some p3 =>
        match (m.mem p3 page.i3).frame with
        | .error e => (m, .err (frameErrorToUnmap e))
        | .ok _ =>
          match m.resolve (self.p2_page page) with
          | none => (m, .fault)
          | some p2 =>
            match (m.mem p2 page.i2).frame with
            | .error e => (m, .err (frameErrorToUnmap e))
            | .ok _ =>
              match m.resolve (self.p1_page page) with
              | none => (m, .fault)
              | some p1 =>
                match (m.mem p1 page.i1).frame with
                | .error e => (m, .err (frameErrorToUnmap e))
                | .ok frame =>
                  (m.writeE p1 page.i1 ⟨0⟩, .ok (frame, page))

/-- A descriptor is a valid table/page descriptor: VALID set and not a
block. -/
def isTableE (e : PageTableEntry) : Bool :=
  PageTableFlags.contains e.flags PageTableFlags.VALID && ! e.is_block

/-- A descriptor is a valid block descriptor: VALID set and TABLE_OR_PAGE
clear. -/
def isBlockDesc (e : PageTableEntry) : Bool :=
  PageTableFlags.contains e.flags PageTableFlags.VALID && e.is_block

/-- The frame number a table descriptor points at. -/
def eFrame (e : PageTableEntry) : Nat := PhysFrame.containing_address e.addr

/-- The recursive-mapping invariant: the entry at the recursive index of
the root table is a table descriptor pointing back at the root table's own
frame. -/
def recInv (m : Machine) (R : Fin 512) : Prop :=
  isTableE (m.mem m.root R) = true ∧ eFrame (m.mem m.root R) = m.root

/-- The descriptor `create_next_table` installs for a fresh table frame. -/
def tableDesc (f : Nat) : PageTableEntry :=
  ⟨PhysFrame.start_address f ||| PageTableFlags.default ||| MairNormal.attr_value⟩

/-- The descriptor `map_to` installs at the leaf. -/
def leafDesc (f fl at' : Nat) : PageTableEntry :=
  ⟨PhysFrame.start_address f ||| fl ||| at'⟩

/-- The frames of the tables that already exist along the walk of `page`:
the root, then the level-3 / level-2 / level-1 table frames as long as the
corresponding descriptors are valid table descriptors. -/
def pathTables (m : Machine) (page : Page4K) : List Nat :=
  m.root ::
    (let e4 := m.mem m.root page.i4
     if isTableE e4 then
       eFrame e4 ::
         (let e3 := m.mem (eFrame e4) page.i3
          if isTableE e3 then
            eFrame e3 ::
              (let e2 := m.mem (eFrame e3) page.i2
               if isTableE e2 then [eFrame e2] else [])
          else [])
     else [])


/-- Modelled from the spec: the independent walk of the real tables — follow
the root table's descriptor chain for `page` and return the level-3, level-2
and level-1 table frames (the spec's recursive-addressing consistency
property compares the recursive virtual addresses against this walk). -/
def directTables (m : Machine) (page : Page4K) : Option (Nat × Nat × Nat) :=
  match entryKind (m.mem m.root page.i4) with
  | .table t3 =>
    match entryKind (m.mem t3 page.i3) with
    | .table t2 =>
      match entryKind (m.mem t2 page.i2) with
      | .table t1 => some (t3, t2, t1)
      | _ => none
    | _ => none
  | _ => none

/-- A concrete machine: the root table lives in frame 1, its entry 0 is the
recursive entry, everything else is empty. -/
def M0 : Machine :=
  ⟨fun g => if g = 1 then
      (fun j => if j = (0 : Fin 512) then tableDesc 1 else ⟨0⟩)
    else zeroedTable, 1⟩

/-- A concrete 4KiB page with indices (1, 0, 0, 0). -/
def P0 : Page4K := ⟨1, 0, 0, 0⟩

/-- A concrete machine with a full table path for the page `Pfull`:
root (frame 1, recursive entry 0) → level-3 table in frame 5 → level-2 table
in frame 6 → level-1 table in frame 7, whose entry 5 maps frame 9 with
flags VALID | TABLE_OR_PAGE | AF and the normal-cacheable attribute. -/
def Mfull : Machine :=
  ⟨fun g =>
    if g = 1 then
      (fun j => if j = (0 : Fin 512) then tableDesc 1
        else if j = (2 : Fin 512) then tableDesc 5 else ⟨0⟩)
    else if g = 5 then (fun j => if j = (3 : Fin 512) then tableDesc 6 else ⟨0⟩)
    else if g = 6 then (fun j => if j = (4 : Fin 512) then tableDesc 7 else ⟨0⟩)
    else if g = 7 then
      (fun j => if j = (5 : Fin 512) then leafDesc 9 0x403 0x300 else ⟨0⟩)
    else zeroedTable, 1⟩

/-- The concrete 4KiB page with indices (2, 3, 4, 5), fully mapped in `Mfull`. -/
def Pfull : Page4K := ⟨2, 3, 4, 5⟩

/-- A concrete machine whose level-3 table (frame 5) holds a valid 1GiB
block descriptor at index 3 (VALID | AF, output address 1GiB). -/
def Mblk : Machine :=
  ⟨fun g =>
    if g = 1 then
      (fun j => if j = (0 : Fin 512) then tableDesc 1
        else if j = (2 : Fin 512) then tableDesc 5 else ⟨0⟩)
    else if g = 5 then (fun j => if j = (3 : Fin 512) then ⟨0x40000401⟩ else ⟨0⟩)
    else zeroedTable, 1⟩

/-- A concrete 4KiB page covered by the 1GiB block of `Mblk`. -/
def Pblk : Page4K := ⟨2, 3, 0, 0⟩

/-! ### Bit-level toolkit -/

theorem lor_land_distrib (x y z : Nat) :
    (x ||| y) &&& z = (x &&& z) ||| (y &&& z) := by
  apply Nat.eq_of_testBit_eq
  intro i
  simp [Nat.testBit_land, Nat.testBit_lor, Bool.and_or_distrib_right]

theorem land_zero_of_wf (f a msk : Nat) (hf : f &&& a = f) (ham : a &&& msk = 0) :
    f &&& msk = 0 := by
  rw [← hf, Nat.and_assoc, ham, Nat.and_zero]

theorem mask_write_read (x f c a : Nat) (hf : f &&& a = f) (hca : c &&& a = 0) :
    ((x &&& c) ||| f) &&& a = f := by
  rw [lor_land_distrib, Nat.and_assoc, hca, Nat.and_zero, Nat.zero_or, hf]

theorem mask_write_keep (x f c a : Nat) (hf : f &&& a = 0) (hca : c &&& a = a) :
    ((x &&& c) ||| f) &&& a = x &&& a := by
  rw [lor_land_distrib, Nat.and_assoc, hca, hf, Nat.or_zero]

theorem shl12_land_small (f c : Nat) (hc : c < 4096) : (f <<< 12) &&& c = 0 := by
  apply Nat.eq_of_testBit_eq
  intro i
  simp only [Nat.testBit_land, Nat.testBit_shiftLeft, Nat.zero_testBit]
  by_cases h : 12 ≤ i
  · have hc2 : c < 2 ^ i :=
      lt_of_lt_of_le (by simpa using hc)
        (Nat.pow_le_pow_right (by norm_num) h)
    simp [Nat.testBit_lt_two_pow hc2]
  · simp [h]

theorem shl12_land_of_mid_zero (f c : Nat) (hf : f < 2 ^ 36)
    (hc : ∀ i, 12 ≤ i → i < 48 → c.testBit i = false) : (f <<< 12) &&& c = 0 := by
  apply Nat.eq_of_testBit_eq
  intro i
  simp only [Nat.testBit_land, Nat.testBit_shiftLeft, Nat.zero_testBit]
  by_cases h12 : 12 ≤ i
  · by_cases h48 : i < 48
    · simp [hc i h12 h48]
    · have : f < 2 ^ (i - 12) :=
        lt_of_lt_of_le hf (Nat.pow_le_pow_right (by norm_num) (by omega))
      simp [Nat.testBit_lt_two_pow this]
  · simp [h12]

theorem AM_shape : ADDR_MASK = (2 ^ 36 - 1) <<< 12 := by decide

theorem shl12_land_am (f : Nat) (hf : f < 2 ^ 36) :
    (f <<< 12) &&& ADDR_MASK = f <<< 12 := by
  apply Nat.eq_of_testBit_eq
  intro i
  rw [AM_shape]
  simp only [Nat.testBit_land, Nat.testBit_shiftLeft, Nat.testBit_two_pow_sub_one]
  by_cases h12 : 12 ≤ i
  · by_cases h36 : i - 12 < 36
    · simp [h12, h36]
    · have : f.testBit (i - 12) = false :=
        Nat.testBit_lt_two_pow
          (lt_of_lt_of_le hf (Nat.pow_le_pow_right (by norm_num) (by omega)))
      simp [this]
  · simp [h12]

theorem testBit_flagsALL_mid : ∀ i, 12 ≤ i → i < 48 →
    (PageTableFlags.ALL).testBit i = false := by
  have hALL : PageTableFlags.ALL = 0xfff8000000000ce3 := by decide
  intro i h1 h2
  rw [hALL]
  interval_cases i <;> decide

theorem shl12_land_flagsALL (f : Nat) (hf : f < 2 ^ 36) :
    (f <<< 12) &&& PageTableFlags.ALL = 0 :=
  shl12_land_of_mid_zero f _ hf testBit_flagsALL_mid

theorem start_address_shl (f : Nat) : PhysFrame.start_address f = f <<< 12 := by
  rw [PhysFrame.start_address, Nat.shiftLeft_eq]

theorem shl12_div (f : Nat) : (f <<< 12) / 4096 = f := by
  rw [Nat.shiftLeft_eq, show (2 : Nat) ^ 12 = 4096 by norm_num]
  exact Nat.mul_div_cancel f (by norm_num)

theorem shl12_mod (f : Nat) : (f <<< 12) % 4096 = 0 := by
  rw [Nat.shiftLeft_eq, show (2 : Nat) ^ 12 = 4096 by norm_num]
  exact Nat.mul_mod_left f 4096

theorem contains_iff (a b : Nat) :
    PageTableFlags.contains a b = true ↔ a &&& b = b := by
  simp [PageTableFlags.contains]

/-! ### Descriptor lemmas -/

theorem leafDesc_entry (f fl at' : Nat) :
    (leafDesc f fl at').entry = ((f <<< 12) ||| fl) ||| at' := by
  rw [leafDesc, start_address_shl]

theorem set_frame_eq (f fl at' : Nat)
    (hT : PageTableFlags.contains fl PageTableFlags.TABLE_OR_PAGE = true) :
    PageTableEntry.set_frame f fl at' = some (leafDesc f fl at') := by
  rw [PageTableEntry.set_frame, if_pos hT, PageTableEntry.set_addr,
    start_address_shl, if_pos (shl12_mod f)]
  congr 1
  rw [leafDesc, start_address_shl]

theorem tableDesc_def :
    tableDesc = fun f => leafDesc f PageTableFlags.default MairNormal.attr_value := rfl

theorem set_frame_default_eq (f : Nat) :
    PageTableEntry.set_frame f PageTableFlags.default MairNormal.attr_value =
      some (tableDesc f) := by
  rw [tableDesc_def]
  exact set_frame_eq f _ _ (by decide)

theorem leafDesc_flags (f fl at' : Nat) (hfl : fl &&& PageTableFlags.ALL = fl)
    (hat : at' &&& MEMORY_ATTR_MASK = at') (hf : f < 2 ^ 36) :
    (leafDesc f fl at').flags = fl := by
  rw [PageTableEntry.flags, leafDesc_entry, lor_land_distrib, lor_land_distrib,
    shl12_land_flagsALL f hf, hfl,
    land_zero_of_wf at' MEMORY_ATTR_MASK PageTableFlags.ALL hat (by decide),
    Nat.zero_or, Nat.or_zero]

theorem leafDesc_addr (f fl at' : Nat) (hfl : fl &&& PageTableFlags.ALL = fl)
    (hat : at' &&& MEMORY_ATTR_MASK = at') (hf : f < 2 ^ 36) :
    (leafDesc f fl at').addr = f <<< 12 := by
  rw [PageTableEntry.addr, leafDesc_entry, lor_land_distrib, lor_land_distrib,
    shl12_land_am f hf,
    land_zero_of_wf fl PageTableFlags.ALL ADDR_MASK hfl (by decide),
    land_zero_of_wf at' MEMORY_ATTR_MASK ADDR_MASK hat (by decide),
    Nat.or_zero, Nat.or_zero]

theorem leafDesc_attr (f fl at' : Nat) (hfl : fl &&& PageTableFlags.ALL = fl)
    (hat : at' &&& MEMORY_ATTR_MASK = at') :
    (leafDesc f fl at').attr = at' := by
  rw [PageTableEntry.attr, leafDesc_entry, lor_land_distrib, lor_land_distrib,
    shl12_land_small f MEMORY_ATTR_MASK (by decide),
    land_zero_of_wf fl PageTableFlags.ALL MEMORY_ATTR_MASK hfl (by decide),
    hat, Nat.zero_or, Nat.zero_or]

theorem leafDesc_eFrame (f fl at' : Nat) (hfl : fl &&& PageTableFlags.ALL = fl)
    (hat : at' &&& MEMORY_ATTR_MASK = at') (hf : f < 2 ^ 36) :
    eFrame (leafDesc f fl at') = f := by
  rw [eFrame, PhysFrame.containing_address, leafDesc_addr f fl at' hfl hat hf,
    shl12_div]

theorem leafDesc_land_table (f fl at' : Nat)
    (hT : fl &&& PageTableFlags.TABLE_OR_PAGE = PageTableFlags.TABLE_OR_PAGE)
    (hat : at' &&& MEMORY_ATTR_MASK = at') :
    (leafDesc f fl at').entry &&& PageTableFlags.TABLE_OR_PAGE =
      PageTableFlags.TABLE_OR_PAGE := by
  rw [leafDesc_entry, lor_land_distrib, lor_land_distrib,
    shl12_land_small f PageTableFlags.TABLE_OR_PAGE (by decide), hT,
    land_zero_of_wf at' MEMORY_ATTR_MASK PageTableFlags.TABLE_OR_PAGE hat (by decide),
    Nat.zero_or, Nat.or_zero]

theorem leafDesc_is_unused (f fl at' : Nat)
    (hT : fl &&& PageTableFlags.TABLE_OR_PAGE = PageTableFlags.TABLE_OR_PAGE)
    (hat : at' &&& MEMORY_ATTR_MASK = at') :
    (leafDesc f fl at').is_unused = false := by
  have h2 := leafDesc_land_table f fl at' hT hat
  rw [PageTableEntry.is_unused]
  by_cases he : (leafDesc f fl at').entry = 0
  · rw [he] at h2
    simp [PageTableFlags.TABLE_OR_PAGE] at h2
  · simp [he]

theorem leafDesc_is_block (f fl at' : Nat) (hfl : fl &&& PageTableFlags.ALL = fl)
    (hat : at' &&& MEMORY_ATTR_MASK = at') (hf : f < 2 ^ 36)
    (hT : PageTableFlags.contains fl PageTableFlags.TABLE_OR_PAGE = true) :
    (leafDesc f fl at').is_block = false := by
  rw [PageTableEntry.is_block, leafDesc_flags f fl at' hfl hat hf, hT]
  rfl

theorem leafDesc_isTable (f fl at' : Nat) (hfl : fl &&& PageTableFlags.ALL = fl)
    (hat : at' &&& MEMORY_ATTR_MASK = at') (hf : f < 2 ^ 36)
    (hV : PageTableFlags.contains fl PageTableFlags.VALID = true)
    (hT : PageTableFlags.contains fl PageTableFlags.TABLE_OR_PAGE = true) :
    isTableE (leafDesc f fl at') = true := by
  rw [isTableE, leafDesc_is_block f fl at' hfl hat hf hT,
    leafDesc_flags f fl at' hfl hat hf, hV]
  rfl

theorem leafDesc_frame (f fl at' : Nat) (hfl : fl &&& PageTableFlags.ALL = fl)
    (hat : at' &&& MEMORY_ATTR_MASK = at') (hf : f < 2 ^ 36)
    (hV : PageTableFlags.contains fl PageTableFlags.VALID = true)
    (hT : PageTableFlags.contains fl PageTableFlags.TABLE_OR_PAGE = true) :
    (leafDesc f fl at').frame = .ok f := by
  rw [PageTableEntry.frame, leafDesc_flags f fl at' hfl hat hf,
    leafDesc_is_block f fl at' hfl hat hf hT, hV]
  simp only [Bool.not_true, Bool.false_eq_true, if_false]
  rw [PageTableEntry.addr]
  have := leafDesc_addr f fl at' hfl hat hf
  rw [PageTableEntry.addr] at this
  rw [this]
  simp [PhysFrame.containing_address, shl12_div]

theorem tableDesc_flags (f : Nat) (hf : f < 2 ^ 36) :
    (tableDesc f).flags = PageTableFlags.default := by
  rw [tableDesc_def]
  exact leafDesc_flags f _ _ (by decide) (by decide) hf

theorem tableDesc_attr (f : Nat) : (tableDesc f).attr = MairNormal.attr_value := by
  rw [tableDesc_def]
  exact leafDesc_attr f _ _ (by decide) (by decide)

theorem tableDesc_eFrame (f : Nat) (hf : f < 2 ^ 36) : eFrame (tableDesc f) = f := by
  rw [tableDesc_def]
  exact leafDesc_eFrame f _ _ (by decide) (by decide) hf

theorem tableDesc_is_unused (f : Nat) : (tableDesc f).is_unused = false := by
  rw [tableDesc_def]
  exact leafDesc_is_unused f _ _ (by decide) (by decide)

theorem leafDesc_is_block_nb (f fl at' : Nat)
    (hT : fl &&& PageTableFlags.TABLE_OR_PAGE = PageTableFlags.TABLE_OR_PAGE)
    (hat : at' &&& MEMORY_ATTR_MASK = at') :
    (leafDesc f fl at').is_block = false := by
  have h2 := leafDesc_land_table f fl at' hT hat
  rw [PageTableEntry.is_block, PageTableFlags.contains, PageTableEntry.flags,
    Nat.and_assoc,
    show PageTableFlags.ALL &&& PageTableFlags.TABLE_OR_PAGE =
      PageTableFlags.TABLE_OR_PAGE from by decide, h2]
  simp

theorem tableDesc_is_block (f : Nat) : (tableDesc f).is_block = false := by
  rw [tableDesc_def]
  exact leafDesc_is_block_nb f _ _ (by decide) (by decide)

/-! ### Machine state lemmas -/

theorem writeE_root (m : Machine) (f : Nat) (i : Fin 512) (e : PageTableEntry) :
    (m.writeE f i e).root = m.root := rfl

theorem zeroT_root (m : Machine) (f : Nat) : (m.zeroT f).root = m.root := rfl

theorem writeE_mem_self (m : Machine) (f : Nat) (i : Fin 512) (e : PageTableEntry) :
    (m.writeE f i e).mem f i = e := by
  simp [Machine.writeE]

theorem writeE_mem_ne_frame (m : Machine) (f : Nat) (i : Fin 512) (e : PageTableEntry)
    (g : Nat) (j : Fin 512) (h : g ≠ f) : (m.writeE f i e).mem g j = m.mem g j := by
  simp [Machine.writeE, h]

theorem writeE_mem_ne_idx (m : Machine) (f : Nat) (i : Fin 512) (e : PageTableEntry)
    (g : Nat) (j : Fin 512) (h : j ≠ i) : (m.writeE f i e).mem g j = m.mem g j := by
  by_cases hg : g = f
  · subst hg; simp [Machine.writeE, h]
  · simp [Machine.writeE, hg]

theorem zeroT_mem_self (m : Machine) (f : Nat) (j : Fin 512) :
    (m.zeroT f).mem f j = ⟨0⟩ := by
  simp [Machine.zeroT, zeroedTable]

theorem zeroT_mem_ne (m : Machine) (f : Nat) (g : Nat) (j : Fin 512) (h : g ≠ f) :
    (m.zeroT f).mem g j = m.mem g j := by
  simp [Machine.zeroT, h]

/-! ### Entry classification lemmas -/

theorem entryKind_table (e : PageTableEntry) (h : isTableE e = true) :
    entryKind e = .table (eFrame e) := by
  rw [isTableE, Bool.and_eq_true] at h
  have h2 : e.is_block = false := by
    cases hb : e.is_block
    · rfl
    · rw [hb] at h; simp at h
  simp [entryKind, h.1, h2, eFrame]

theorem entryKind_invalid (e : PageTableEntry)
    (h : PageTableFlags.contains e.flags PageTableFlags.VALID = false) :
    entryKind e = .invalid := by
  simp [entryKind, h]

theorem entryKind_zero : entryKind ⟨0⟩ = .invalid := by decide

theorem entryKind_block (e : PageTableEntry) (h : isBlockDesc e = true) :
    entryKind e = .block e.addr := by
  rw [isBlockDesc, Bool.and_eq_true] at h
  simp [entryKind, h.1, h.2]

theorem entryKind_table_inv (e : PageTableEntry) (f : Nat)
    (h : entryKind e = .table f) : isTableE e = true ∧ f = eFrame e := by
  have h1' : PageTableFlags.contains e.flags PageTableFlags.VALID = true := by
    cases hv : PageTableFlags.contains e.flags PageTableFlags.VALID
    · rw [entryKind_invalid e hv] at h; exact absurd h (by simp)
    · rfl
  have h2' : e.is_block = false := by
    cases hb : e.is_block
    · rfl
    · have hk : entryKind e = .block e.addr := by simp [entryKind, h1', hb]
      rw [hk] at h; exact absurd h (by simp)
  have hk : entryKind e = .table (eFrame e) := by simp [entryKind, h1', h2', eFrame]
  rw [hk] at h
  have hef : eFrame e = f := by injection h
  exact ⟨by simp [isTableE, h1', h2'], hef.symm⟩

theorem unused_is_zero (e : PageTableEntry) (h : e.is_unused = true) : e = ⟨0⟩ := by
  rw [PageTableEntry.is_unused, beq_iff_eq] at h
  cases e
  simp_all

theorem valid_not_unused (e : PageTableEntry)
    (h : PageTableFlags.contains e.flags PageTableFlags.VALID = true) :
    e.is_unused = false := by
  cases hu : e.is_unused
  · rfl
  · rw [unused_is_zero e hu] at h
    simp [PageTableEntry.flags, PageTableFlags.contains] at h
    exact absurd h (by decide)

theorem isTable_not_unused (e : PageTableEntry) (h : isTableE e = true) :
    e.is_unused = false := by
  rw [isTableE, Bool.and_eq_true] at h
  exact valid_not_unused e h.1

theorem isTable_not_block (e : PageTableEntry) (h : isTableE e = true) :
    e.is_block = false := by
  rw [isTableE, Bool.and_eq_true] at h
  cases hb : e.is_block
  · rfl
  · rw [hb] at h; simp at h

/-! ### Resolve lemmas under the recursive-mapping invariant -/

theorem resolve_rrrr (m : Machine) (R : Fin 512) (hrec : recInv m R) :
    m.resolve ⟨R, R, R, R⟩ = some m.root := by
  have h1 := entryKind_table _ hrec.1
  rw [hrec.2] at h1
  simp [Machine.resolve, h1]

theorem resolve_rrra (m : Machine) (R : Fin 512) (hrec : recInv m R) (a : Fin 512) :
    m.resolve ⟨R, R, R, a⟩ =
      (match entryKind (m.mem m.root a) with
       | .table f => some f
       | _ => none) := by
  have h1 := entryKind_table _ hrec.1
  rw [hrec.2] at h1
  simp only [Machine.resolve, h1]
  cases entryKind (m.mem m.root a) <;> rfl

theorem resolve_rrab (m : Machine) (R : Fin 512) (hrec : recInv m R) (a b : Fin 512)
    (h3 : isTableE (m.mem m.root a) = true) :
    m.resolve ⟨R, R, a, b⟩ =
      (match entryKind (m.mem (eFrame (m.mem m.root a)) b) with
       | .table f => some f
       | _ => none) := by
  have h1 := entryKind_table _ hrec.1
  rw [hrec.2] at h1
  have h2 := entryKind_table _ h3
  simp only [Machine.resolve, h1, h2]
  cases entryKind (m.mem (eFrame (m.mem m.root a)) b) <;> rfl

theorem resolve_rabc (m : Machine) (R : Fin 512) (hrec : recInv m R) (a b c : Fin 512)
    (h3 : isTableE (m.mem m.root a) = true)
    (h2 : isTableE (m.mem (eFrame (m.mem m.root a)) b) = true) :
    m.resolve ⟨R, a, b, c⟩ =
      (match entryKind (m.mem (eFrame (m.mem (eFrame (m.mem m.root a)) b)) c) with
       | .table f => some f
       | _ => none) := by
  have h1 := entryKind_table _ hrec.1
  rw [hrec.2] at h1
  have h3' := entryKind_table _ h3
  have h2' := entryKind_table _ h2
  simp only [Machine.resolve, h1, h3', h2']
  cases entryKind (m.mem (eFrame (m.mem (eFrame (m.mem m.root a)) b)) c) <;> rfl

theorem resolve_rrra_table (m : Machine) (R : Fin 512) (hrec : recInv m R)
    (a : Fin 512) (hA : isTableE (m.mem m.root a) = true) :
    m.resolve ⟨R, R, R, a⟩ = some (eFrame (m.mem m.root a)) := by
  rw [resolve_rrra m R hrec a, entryKind_table _ hA]

theorem resolve_rrab_table (m : Machine) (R : Fin 512) (hrec : recInv m R)
    (a b : Fin 512) (h3 : isTableE (m.mem m.root a) = true)
    (h2 : isTableE (m.mem (eFrame (m.mem m.root a)) b) = true) :
    m.resolve ⟨R, R, a, b⟩ = some (eFrame (m.mem (eFrame (m.mem m.root a)) b)) := by
  rw [resolve_rrab m R hrec a b h3, entryKind_table _ h2]

theorem resolve_rabc_table (m : Machine) (R : Fin 512) (hrec : recInv m R)
    (a b c : Fin 512) (h3 : isTableE (m.mem m.root a) = true)
    (h2 : isTableE (m.mem (eFrame (m.mem m.root a)) b) = true)
    (h1 : isTableE (m.mem (eFrame (m.mem (eFrame (m.mem m.root a)) b)) c) = true) :
    m.resolve ⟨R, a, b, c⟩ =
      some (eFrame (m.mem (eFrame (m.mem (eFrame (m.mem m.root a)) b)) c)) := by
  rw [resolve_rabc m R hrec a b c h3 h2, entryKind_table _ h1]

/-! ### create_next_table equations -/

theorem cnt_unused_nil (m : Machine) (parent : Nat) (idx : Fin 512) (v : Page4K)
    (h0 : (m.mem parent idx).is_unused = true) :
    create_next_table m parent idx v [] = (m, [], .err .FrameAllocationFailed) := by
  simp [create_next_table, h0]

theorem cnt_created (m : Machine) (parent : Nat) (idx : Fin 512) (v : Page4K)
    (f : Nat) (rest : List Nat) (h0 : (m.mem parent idx).is_unused = true) :
    create_next_table m parent idx v (f :: rest) =
      (match (m.writeE parent idx (tableDesc f)).resolve v with
       | none => (m.writeE parent idx (tableDesc f), rest, .fault)
       | some t => ((m.writeE parent idx (tableDesc f)).zeroT t, rest, .ok t)) := by
  simp only [create_next_table, h0, if_true, set_frame_default_eq,
    tableDesc_is_block, Bool.false_eq_true, if_false]

theorem cnt_existing (m : Machine) (parent : Nat) (idx : Fin 512) (v : Page4K)
    (alloc : List Nat) (h0 : (m.mem parent idx).is_unused = false)
    (hb : (m.mem parent idx).is_block = false) :
    create_next_table m parent idx v alloc =
      (match m.resolve v with
       | none => (m, alloc, .fault)
       | some t => (m, alloc, .ok t)) := by
  simp only [create_next_table, h0, Bool.false_eq_true, if_false, hb]

theorem cnt_block (m : Machine) (parent : Nat) (idx : Fin 512) (v : Page4K)
    (alloc : List Nat) (h0 : (m.mem parent idx).is_unused = false)
    (hb : (m.mem parent idx).is_block = true) :
    create_next_table m parent idx v alloc = (m, alloc, .err .ParentEntryHugePage) := by
  simp [create_next_table, h0, hb]

theorem cnt_ok_inv (m : Machine) (parent : Nat) (idx : Fin 512) (v : Page4K)
    (alloc : List Nat) (t : Nat)
    (hok : (create_next_table m parent idx v alloc).2.2 = .ok t) :
    ((m.mem parent idx).is_unused = false ∧ (m.mem parent idx).is_block = false ∧
      m.resolve v = some t ∧
      create_next_table m parent idx v alloc = (m, alloc, .ok t))
    ∨ (∃ f rest, alloc = f :: rest ∧ (m.mem parent idx).is_unused = true ∧
        (m.writeE parent idx (tableDesc f)).resolve v = some t ∧
        create_next_table m parent idx v alloc =
          ((m.writeE parent idx (tableDesc f)).zeroT t, rest, .ok t)) := by
  by_cases h0 : (m.mem parent idx).is_unused = true
  · right
    cases alloc with
    | nil =>
      rw [cnt_unused_nil m parent idx v h0] at hok
      simp at hok
    | cons f rest =>
      rw [cnt_created m parent idx v f rest h0] at hok
      cases hres : (m.writeE parent idx (tableDesc f)).resolve v with
      | none => rw [hres] at hok; simp at hok
      | some t' =>
        rw [hres] at hok
        simp only [PResult.ok.injEq] at hok
        subst hok
        exact ⟨f, rest, rfl, h0, hres, by rw [cnt_created m parent idx v f rest h0, hres]⟩
  · left
    have h0' : (m.mem parent idx).is_unused = false := by simpa using h0
    by_cases hb : (m.mem parent idx).is_block = true
    · rw [cnt_block m parent idx v alloc h0' hb] at hok
      simp at hok
    · have hb' : (m.mem parent idx).is_block = false := by simpa using hb
      rw [cnt_existing m parent idx v alloc h0' hb'] at hok
      cases hres : m.resolve v with
      | none => rw [hres] at hok; simp at hok
      | some t' =>
        rw [hres] at hok
        simp only [PResult.ok.injEq] at hok
        subst hok
        exact ⟨h0', hb', rfl, by rw [cnt_existing m parent idx v alloc h0' hb', hres]⟩

/-! ### Helpers for the map_to characterization -/

theorem p4_page_eq (R : Fin 512) (p : Page4K) :
    RecursivePageTable.p4_page ⟨R⟩ p = ⟨R, R, R, R⟩ := rfl

theorem p3_page_eq (R : Fin 512) (p : Page4K) :
    RecursivePageTable.p3_page ⟨R⟩ p = ⟨R, R, R, p.i4⟩ := rfl

theorem p2_page_eq (R : Fin 512) (p : Page4K) :
    RecursivePageTable.p2_page ⟨R⟩ p = ⟨R, R, p.i4, p.i3⟩ := rfl

theorem p1_page_eq (R : Fin 512) (p : Page4K) :
    RecursivePageTable.p1_page ⟨R⟩ p = ⟨R, p.i4, p.i3, p.i2⟩ := rfl

theorem tableDesc_isTable (f : Nat) (hf : f < 2 ^ 36) :
    isTableE (tableDesc f) = true := by
  rw [tableDesc_def]
  exact leafDesc_isTable f _ _ (by decide) (by decide) hf (by decide) (by decide)

theorem recInv_writeE (m : Machine) (R : Fin 512) (h : recInv m R)
    (g : Nat) (j : Fin 512) (e : PageTableEntry)
    (hcond : m.root ≠ g ∨ R ≠ j) : recInv (m.writeE g j e) R := by
  have hval : (m.writeE g j e).mem (m.writeE g j e).root R = m.mem m.root R := by
    rw [writeE_root]
    rcases hcond with hg | hj
    · exact writeE_mem_ne_frame m g j e m.root R hg
    · exact writeE_mem_ne_idx m g j e m.root R hj
  unfold recInv at h ⊢
  exact ⟨by rw [hval]; exact h.1, by rw [hval, writeE_root]; exact h.2⟩

theorem recInv_zeroT (m : Machine) (R : Fin 512) (h : recInv m R)
    (g : Nat) (hg : m.root ≠ g) : recInv (m.zeroT g) R := by
  have hval : (m.zeroT g).mem (m.zeroT g).root R = m.mem m.root R := by
    rw [zeroT_root]
    exact zeroT_mem_ne m g m.root R hg
  unfold recInv at h ⊢
  exact ⟨by rw [hval]; exact h.1, by rw [hval, zeroT_root]; exact h.2⟩

theorem match_table_some_inv (E : PageTableEntry) (t : Nat)
    (h : (match entryKind E with
          | .table f => some f
          | _ => none) = some t) :
    isTableE E = true ∧ t = eFrame E := by
  cases hk : entryKind E with
  | invalid => rw [hk] at h; simp at h
  | block b => rw [hk] at h; simp at h
  | table f =>
    rw [hk] at h
    simp only [Option.some.injEq] at h
    obtain ⟨h1, h2⟩ := entryKind_table_inv E f hk
    exact ⟨h1, by rw [← h, h2]⟩

theorem root_mem_pathTables (m : Machine) (page : Page4K) :
    m.root ∈ pathTables m page := by
  rw [pathTables]
  exact List.mem_cons_self _ _

theorem isTableE_zeroE : isTableE ⟨0⟩ = false := by decide

theorem is_unused_zeroE : (⟨0⟩ : PageTableEntry).is_unused = true := by decide

theorem created_extract (mC : Machine) (vA : Page4K) (parent : Nat) (j : Fin 512)
    (g t : Nat)
    (hres : (mC.writeE parent j (tableDesc g)).resolve vA = some t)
    (hchar : (mC.writeE parent j (tableDesc g)).resolve vA =
       (match entryKind ((mC.writeE parent j (tableDesc g)).mem parent j) with
        | .table f => some f
        | _ => none))
    (hg : g < 2 ^ 36) : t = g := by
  rw [hchar, writeE_mem_self, entryKind_table _ (tableDesc_isTable g hg),
    tableDesc_eFrame g hg] at hres
  exact (Option.some.inj hres).symm

theorem mapTo_ok_shape
    (m : Machine) (R : Fin 512) (page : Page4K) (frame fl at' : Nat) (alloc : List Nat)
    (hrec : recInv m R)
    (hi4 : page.i4 ≠ R)
    (hnd : (pathTables m page).Nodup)
    (hfresh : ∀ f ∈ alloc.take 3, f ∉ pathTables m page ∧ f < 2 ^ 36)
    (htake : (alloc.take 3).Nodup)
    (hok : (map_to ⟨R⟩ page frame fl at' m alloc).2.2 = .ok page) :
    ∃ t3 t2 t1 m' a',
      map_to ⟨R⟩ page frame fl at' m alloc = (m', a', .ok page) ∧
      m'.root = m.root ∧
      recInv m' R ∧
      [m.root, t3, t2, t1].Nodup ∧
      isTableE (m'.mem m.root page.i4) = true ∧
      eFrame (m'.mem m.root page.i4) = t3 ∧
      isTableE (m'.mem t3 page.i3) = true ∧
      eFrame (m'.mem t3 page.i3) = t2 ∧
      isTableE (m'.mem t2 page.i2) = true ∧
      eFrame (m'.mem t2 page.i2) = t1 ∧
      m'.mem t1 page.i1 = leafDesc frame fl at' ∧
      PageTableFlags.contains fl PageTableFlags.TABLE_OR_PAGE = true := by
  have hres4 : m.resolve (RecursivePageTable.p4_page ⟨R⟩ page) = some m.root := by
    rw [p4_page_eq]; exact resolve_rrrr m R hrec
  cases k3 : (create_next_table m m.root page.i4
      (RecursivePageTable.p3_page ⟨R⟩ page) alloc).2.2 with
  | err e =>
    have hbad : (map_to ⟨R⟩ page frame fl at' m alloc).2.2 = .err e := by
      simp [map_to, hres4, k3]
    rw [hbad] at hok; exact absurd hok (by simp)
  | fault =>
    have hbad : (map_to ⟨R⟩ page frame fl at' m alloc).2.2 = .fault := by
      simp [map_to, hres4, k3]
    rw [hbad] at hok; exact absurd hok (by simp)
  | ok t3 =>
    rcases cnt_ok_inv m m.root page.i4 (RecursivePageTable.p3_page ⟨R⟩ page) alloc t3 k3 with
      ⟨h3u, h3b, h3res, h3eq⟩ | ⟨f1, rest1, halloc, h3u, h3res, h3eq⟩
    · -- level 3: existing table
      rw [p3_page_eq, resolve_rrra m R hrec page.i4] at h3res
      obtain ⟨h4T, h3val⟩ := match_table_some_inv _ _ h3res
      cases k2 : (create_next_table m t3 page.i3
          (RecursivePageTable.p2_page ⟨R⟩ page) alloc).2.2 with
      | err e =>
        have hbad : (map_to ⟨R⟩ page frame fl at' m alloc).2.2 = .err e := by
          simp [map_to, hres4, h3eq, k2]
        rw [hbad] at hok; exact absurd hok (by simp)
      | fault =>
        have hbad : (map_to ⟨R⟩ page frame fl at' m alloc).2.2 = .fault := by
          simp [map_to, hres4, h3eq, k2]
        rw [hbad] at hok; exact absurd hok (by simp)
      | ok t2 =>
        rcases cnt_ok_inv m t3 page.i3 (RecursivePageTable.p2_page ⟨R⟩ page) alloc t2 k2 with
          ⟨h2u, h2b, h2res, h2eq⟩ | ⟨f1, rest1, halloc, h2u, h2res, h2eq⟩
        · -- level 2: existing table
          rw [p2_page_eq, resolve_rrab m R hrec page.i4 page.i3 h4T, ← h3val] at h2res
          obtain ⟨h3T, h2val⟩ := match_table_some_inv _ _ h2res
          cases k1 : (create_next_table m t2 page.i2
              (RecursivePageTable.p1_page ⟨R⟩ page) alloc).2.2 with
          | err e =>
            have hbad : (map_to ⟨R⟩ page frame fl at' m alloc).2.2 = .err e := by
              simp [map_to, hres4, h3eq, h2eq, k1]
            rw [hbad] at hok; exact absurd hok (by simp)
          | fault =>
            have hbad : (map_to ⟨R⟩ page frame fl at' m alloc).2.2 = .fault := by
              simp [map_to, hres4, h3eq, h2eq, k1]
            rw [hbad] at hok; exact absurd hok (by simp)
          | ok t1 =>
            rcases cnt_ok_inv m t2 page.i2 (RecursivePageTable.p1_page ⟨R⟩ page) alloc t1 k1 with
              ⟨h1u, h1b, h1res, h1eq⟩ | ⟨f1, rest1, halloc, h1u, h1res, h1eq⟩
            · -- level 1: existing table  — shape (E, E, E)
              have h3T' : isTableE (m.mem (eFrame (m.mem m.root page.i4)) page.i3) = true := by
                rw [← h3val]; exact h3T
              rw [p1_page_eq, resolve_rabc m R hrec page.i4 page.i3 page.i2 h4T h3T',
                ← h3val, ← h2val] at h1res
              obtain ⟨h2T, h1val⟩ := match_table_some_inv _ _ h1res
              have hpt : pathTables m page = [m.root, t3, t2, t1] := by
                simp only [pathTables, ← h3val, h4T, if_true, ← h2val, h3T, ← h1val, h2T]
              have hnd' := hnd
              rw [hpt] at hnd'
              simp only [List.nodup_cons, List.mem_cons, List.mem_singleton,
                List.not_mem_nil, or_false, not_or, List.nodup_nil, and_true] at hnd'
              obtain ⟨⟨h01, h02, h03⟩, ⟨h12, h13⟩, h23, -⟩ := hnd'
              cases kL : (m.mem t1 page.i1).is_unused with
              | false =>
                have hbad : (map_to ⟨R⟩ page frame fl at' m alloc).2.2 =
                    .err .PageAlreadyMapped := by
                  simp [map_to, hres4, h3eq, h2eq, h1eq, kL]
                rw [hbad] at hok; exact absurd hok (by simp)
              | true =>
                cases kT : PageTableFlags.contains fl PageTableFlags.TABLE_OR_PAGE with
                | false =>
                  have hsf : PageTableEntry.set_frame frame fl at' = none := by
                    simp [PageTableEntry.set_frame, kT]
                  have hbad : (map_to ⟨R⟩ page frame fl at' m alloc).2.2 = .fault := by
                    simp [map_to, hres4, h3eq, h2eq, h1eq, kL, hsf]
                  rw [hbad] at hok; exact absurd hok (by simp)
                | true =>
                  have hsf := set_frame_eq frame fl at' kT
                  refine ⟨t3, t2, t1, m.writeE t1 page.i1 (leafDesc frame fl at'), alloc,
                    ?_, rfl, ?_, ?_, ?_, ?_, ?_, ?_, ?_, ?_, ?_, rfl⟩
                  · simp [map_to, hres4, h3eq, h2eq, h1eq, kL, hsf]
                  · exact recInv_writeE m R hrec t1 page.i1 _ (Or.inl h03)
                  · simp [List.nodup_cons, h01, h02, h03, h12, h13, h23]
                  · rw [writeE_mem_ne_frame m t1 page.i1 _ m.root page.i4 h03]
                    exact h4T
                  · rw [writeE_mem_ne_frame m t1 page.i1 _ m.root page.i4 h03]
                    exact h3val.symm
                  · rw [writeE_mem_ne_frame m t1 page.i1 _ t3 page.i3 h13]
                    exact h3T
                  · rw [writeE_mem_ne_frame m t1 page.i1 _ t3 page.i3 h13]
                    exact h2val.symm
                  · rw [writeE_mem_ne_frame m t1 page.i1 _ t2 page.i2 h23]
                    exact h2T
                  · rw [writeE_mem_ne_frame m t1 page.i1 _ t2 page.i2 h23]
                    exact h1val.symm
                  · exact writeE_mem_self m t1 page.i1 _
            · -- level 1: created table  — shape (E, E, C)
              have h2z : m.mem t2 page.i2 = ⟨0⟩ := unused_is_zero _ h1u
              have hpt : pathTables m page = [m.root, t3, t2] := by
                simp only [pathTables, ← h3val, h4T, if_true, ← h2val, h3T, h2z,
                  isTableE_zeroE, Bool.false_eq_true, if_false]
              have hnd' := hnd
              rw [hpt] at hnd'
              simp only [List.nodup_cons, List.mem_cons, List.mem_singleton,
                List.not_mem_nil, or_false, not_or, List.nodup_nil, and_true] at hnd'
              obtain ⟨⟨h01, h02⟩, h12, -⟩ := hnd'
              have hf1mem : f1 ∈ alloc.take 3 := by rw [halloc]; simp
              obtain ⟨hf1p, hf1lt⟩ := hfresh f1 hf1mem
              rw [hpt] at hf1p
              simp only [List.mem_cons, List.mem_singleton, List.not_mem_nil,
                or_false, not_or] at hf1p
              obtain ⟨hf1r, hf1t3, hf1t2⟩ := hf1p
              have hrecW := recInv_writeE m R hrec t2 page.i2 (tableDesc f1) (Or.inl h02)
              have hA : isTableE ((m.writeE t2 page.i2 (tableDesc f1)).mem
                  (m.writeE t2 page.i2 (tableDesc f1)).root page.i4) = true := by
                rw [writeE_root,
                  writeE_mem_ne_frame m t2 page.i2 (tableDesc f1) m.root page.i4 h02]
                exact h4T
              have hB : isTableE ((m.writeE t2 page.i2 (tableDesc f1)).mem
                  (eFrame ((m.writeE t2 page.i2 (tableDesc f1)).mem
                    (m.writeE t2 page.i2 (tableDesc f1)).root page.i4)) page.i3) = true := by
                rw [writeE_root,
                  writeE_mem_ne_frame m t2 page.i2 (tableDesc f1) m.root page.i4 h02,
                  ← h3val,
                  writeE_mem_ne_frame m t2 page.i2 (tableDesc f1) t3 page.i3 h12]
                exact h3T
              have hchar := resolve_rabc (m.writeE t2 page.i2 (tableDesc f1)) R hrecW
                page.i4 page.i3 page.i2 hA hB
              rw [writeE_root,
                writeE_mem_ne_frame m t2 page.i2 (tableDesc f1) m.root page.i4 h02,
                ← h3val,
                writeE_mem_ne_frame m t2 page.i2 (tableDesc f1) t3 page.i3 h12,
                ← h2val] at hchar
              rw [p1_page_eq] at h1res
              have ht1 : t1 = f1 := created_extract m
                ⟨R, page.i4, page.i3, page.i2⟩ t2 page.i2 f1 t1 h1res hchar hf1lt
              subst ht1
              cases kT : PageTableFlags.contains fl PageTableFlags.TABLE_OR_PAGE with
              | false =>
                have hsf : PageTableEntry.set_frame frame fl at' = none := by
                  simp [PageTableEntry.set_frame, kT]
                have hbad : (map_to ⟨R⟩ page frame fl at' m alloc).2.2 = .fault := by
                  simp [map_to, hres4, h3eq, h2eq, h1eq, zeroT_mem_self,
                    is_unused_zeroE, hsf]
                rw [hbad] at hok; exact absurd hok (by simp)
              | true =>
                have hsf := set_frame_eq frame fl at' kT
                refine ⟨t3, t2, t1,
                  ((m.writeE t2 page.i2 (tableDesc t1)).zeroT t1).writeE t1 page.i1
                    (leafDesc frame fl at'), rest1,
                  ?_, rfl, ?_, ?_, ?_, ?_, ?_, ?_, ?_, ?_, ?_, rfl⟩
                · simp [map_to, hres4, h3eq, h2eq, h1eq, zeroT_mem_self,
                    is_unused_zeroE, hsf]
                · exact recInv_writeE _ R
                    (recInv_zeroT _ R hrecW t1 (Ne.symm hf1r)) t1 page.i1 _
                    (Or.inl (Ne.symm hf1r))
                · simp [List.nodup_cons, h01, h02, h12, Ne.symm hf1r, Ne.symm hf1t3,
                    Ne.symm hf1t2]
                · rw [writeE_mem_ne_frame _ t1 page.i1 _ m.root page.i4 (Ne.symm hf1r),
                    zeroT_mem_ne _ t1 m.root page.i4 (Ne.symm hf1r),
                    writeE_mem_ne_frame m t2 page.i2 _ m.root page.i4 h02]
                  exact h4T
                · rw [writeE_mem_ne_frame _ t1 page.i1 _ m.root page.i4 (Ne.symm hf1r),
                    zeroT_mem_ne _ t1 m.root page.i4 (Ne.symm hf1r),
                    writeE_mem_ne_frame m t2 page.i2 _ m.root page.i4 h02]
                  exact h3val.symm
                · rw [writeE_mem_ne_frame _ t1 page.i1 _ t3 page.i3 (Ne.symm hf1t3),
                    zeroT_mem_ne _ t1 t3 page.i3 (Ne.symm hf1t3),
                    writeE_mem_ne_frame m t2 page.i2 _ t3 page.i3 h12]
                  exact h3T
                · rw [writeE_mem_ne_frame _ t1 page.i1 _ t3 page.i3 (Ne.symm hf1t3),
                    zeroT_mem_ne _ t1 t3 page.i3 (Ne.symm hf1t3),
                    writeE_mem_ne_frame m t2 page.i2 _ t3 page.i3 h12]
                  exact h2val.symm
                · rw [writeE_mem_ne_frame _ t1 page.i1 _ t2 page.i2 (Ne.symm hf1t2),
                    zeroT_mem_ne _ t1 t2 page.i2 (Ne.symm hf1t2),
                    writeE_mem_self m t2 page.i2 _]
                  exact tableDesc_isTable t1 hf1lt
                · rw [writeE_mem_ne_frame _ t1 page.i1 _ t2 page.i2 (Ne.symm hf1t2),
                    zeroT_mem_ne _ t1 t2 page.i2 (Ne.symm hf1t2),
                    writeE_mem_self m t2 page.i2 _]
                  exact tableDesc_eFrame t1 hf1lt
                · exact writeE_mem_self _ t1 page.i1 _
        · -- level 2: created table  — shapes (E, C, C)
          have h3z : m.mem t3 page.i3 = ⟨0⟩ := unused_is_zero _ h2u
          have hpt : pathTables m page = [m.root, t3] := by
            simp only [pathTables, ← h3val, h4T, if_true, h3z, isTableE_zeroE,
              Bool.false_eq_true, if_false]
          have hnd' := hnd
          rw [hpt] at hnd'
          simp only [List.nodup_cons, List.mem_cons, List.mem_singleton,
            List.not_mem_nil, or_false, not_or, List.nodup_nil, and_true] at hnd'
          have h01 : ¬m.root = t3 := hnd'.1
          have hf1mem : f1 ∈ alloc.take 3 := by rw [halloc]; simp
          obtain ⟨hf1p, hf1lt⟩ := hfresh f1 hf1mem
          rw [hpt] at hf1p
          simp only [List.mem_cons, List.mem_singleton, List.not_mem_nil,
            or_false, not_or] at hf1p
          obtain ⟨hf1r, hf1t3⟩ := hf1p
          have hrecW := recInv_writeE m R hrec t3 page.i3 (tableDesc f1) (Or.inl h01)
          have hA : isTableE ((m.writeE t3 page.i3 (tableDesc f1)).mem
              (m.writeE t3 page.i3 (tableDesc f1)).root page.i4) = true := by
            rw [writeE_root,
              writeE_mem_ne_frame m t3 page.i3 (tableDesc f1) m.root page.i4 h01]
            exact h4T
          have hchar := resolve_rrab (m.writeE t3 page.i3 (tableDesc f1)) R hrecW
            page.i4 page.i3 hA
          rw [writeE_root,
            writeE_mem_ne_frame m t3 page.i3 (tableDesc f1) m.root page.i4 h01,
            ← h3val] at hchar
          rw [p2_page_eq] at h2res
          have ht2 : t2 = f1 := created_extract m
            ⟨R, R, page.i4, page.i3⟩ t3 page.i3 f1 t2 h2res hchar hf1lt
          subst ht2
          cases k1 : (create_next_table ((m.writeE t3 page.i3 (tableDesc t2)).zeroT t2)
              t2 page.i2 (RecursivePageTable.p1_page ⟨R⟩ page) rest1).2.2 with
          | err e =>
            have hbad : (map_to ⟨R⟩ page frame fl at' m alloc).2.2 = .err e := by
              simp [map_to, hres4, h3eq, h2eq, k1]
            rw [hbad] at hok; exact absurd hok (by simp)
          | fault =>
            have hbad : (map_to ⟨R⟩ page frame fl at' m alloc).2.2 = .fault := by
              simp [map_to, hres4, h3eq, h2eq, k1]
            rw [hbad] at hok; exact absurd hok (by simp)
          | ok t1 =>
            rcases cnt_ok_inv ((m.writeE t3 page.i3 (tableDesc t2)).zeroT t2)
                t2 page.i2 (RecursivePageTable.p1_page ⟨R⟩ page) rest1 t1 k1 with
              ⟨h1u, -, -, -⟩ | ⟨f2, rest2, halloc2, h1u, h1res, h1eq⟩
            · exfalso
              rw [zeroT_mem_self, is_unused_zeroE] at h1u
              exact absurd h1u (by simp)
            · have hf2mem : f2 ∈ alloc.take 3 := by rw [halloc, halloc2]; simp
              obtain ⟨hf2p, hf2lt⟩ := hfresh f2 hf2mem
              rw [hpt] at hf2p
              simp only [List.mem_cons, List.mem_singleton, List.not_mem_nil,
                or_false, not_or] at hf2p
              obtain ⟨hf2r, hf2t3⟩ := hf2p
              have htk := htake
              rw [halloc, halloc2] at htk
              simp only [List.take_succ_cons, List.nodup_cons, List.mem_cons,
                not_or] at htk
              obtain ⟨⟨ht2f2, -⟩, -⟩ := htk
              have hrec2 : recInv ((m.writeE t3 page.i3 (tableDesc t2)).zeroT t2) R :=
                recInv_zeroT _ R hrecW t2 (Ne.symm hf1r)
              have hrecX := recInv_writeE _ R hrec2 t2 page.i2 (tableDesc f2)
                (Or.inl (Ne.symm hf1r))
              have hA2 : isTableE ((((m.writeE t3 page.i3 (tableDesc t2)).zeroT t2).writeE
                  t2 page.i2 (tableDesc f2)).mem
                  (((m.writeE t3 page.i3 (tableDesc t2)).zeroT t2).writeE
                    t2 page.i2 (tableDesc f2)).root page.i4) = true := by
                simp only [writeE_root, zeroT_root]
                rw [writeE_mem_ne_frame _ t2 page.i2 _ m.root page.i4 (Ne.symm hf1r),
                  zeroT_mem_ne _ t2 m.root page.i4 (Ne.symm hf1r),
                  writeE_mem_ne_frame m t3 page.i3 _ m.root page.i4 h01]
                exact h4T
              have hB2 : isTableE ((((m.writeE t3 page.i3 (tableDesc t2)).zeroT t2).writeE
                  t2 page.i2 (tableDesc f2)).mem
                  (eFrame ((((m.writeE t3 page.i3 (tableDesc t2)).zeroT t2).writeE
                    t2 page.i2 (tableDesc f2)).mem
                    (((m.writeE t3 page.i3 (tableDesc t2)).zeroT t2).writeE
                      t2 page.i2 (tableDesc f2)).root page.i4)) page.i3) = true := by
                simp only [writeE_root, zeroT_root]
                rw [writeE_mem_ne_frame _ t2 page.i2 _ m.root page.i4 (Ne.symm hf1r),
                  zeroT_mem_ne _ t2 m.root page.i4 (Ne.symm hf1r),
                  writeE_mem_ne_frame m t3 page.i3 _ m.root page.i4 h01,
                  ← h3val,
                  writeE_mem_ne_frame _ t2 page.i2 _ t3 page.i3 (Ne.symm hf1t3),
                  zeroT_mem_ne _ t2 t3 page.i3 (Ne.symm hf1t3),
                  writeE_mem_self m t3 page.i3 _]
                exact tableDesc_isTable t2 hf1lt
              have hchar2 := resolve_rabc (((m.writeE t3 page.i3 (tableDesc t2)).zeroT
                  t2).writeE t2 page.i2 (tableDesc f2)) R hrecX
                page.i4 page.i3 page.i2 hA2 hB2
              rw [writeE_root, zeroT_root, writeE_root,
                writeE_mem_ne_frame _ t2 page.i2 _ m.root page.i4 (Ne.symm hf1r),
                zeroT_mem_ne _ t2 m.root page.i4 (Ne.symm hf1r),
                writeE_mem_ne_frame m t3 page.i3 _ m.root page.i4 h01,
                ← h3val,
                writeE_mem_ne_frame _ t2 page.i2 _ t3 page.i3 (Ne.symm hf1t3),
                zeroT_mem_ne _ t2 t3 page.i3 (Ne.symm hf1t3),
                writeE_mem_self m t3 page.i3 _,
                tableDesc_eFrame t2 hf1lt] at hchar2
              rw [p1_page_eq] at h1res
              have ht1 : t1 = f2 := created_extract
                ((m.writeE t3 page.i3 (tableDesc t2)).zeroT t2)
                ⟨R, page.i4, page.i3, page.i2⟩ t2 page.i2 f2 t1 h1res hchar2 hf2lt
              subst ht1
              cases kT : PageTableFlags.contains fl PageTableFlags.TABLE_OR_PAGE with
              | false =>
                have hsf : PageTableEntry.set_frame frame fl at' = none := by
                  simp [PageTableEntry.set_frame, kT]
                have hbad : (map_to ⟨R⟩ page frame fl at' m alloc).2.2 = .fault := by
                  simp [map_to, hres4, h3eq, h2eq, h1eq, zeroT_mem_self,
                    is_unused_zeroE, hsf]
                rw [hbad] at hok; exact absurd hok (by simp)
              | true =>
                have hsf := set_frame_eq frame fl at' kT
                refine ⟨t3, t2, t1,
                  ((((m.writeE t3 page.i3 (tableDesc t2)).zeroT t2).writeE t2 page.i2
                    (tableDesc t1)).zeroT t1).writeE t1 page.i1 (leafDesc frame fl at'),
                  rest2,
                  ?_, rfl, ?_, ?_, ?_, ?_, ?_, ?_, ?_, ?_, ?_, rfl⟩
                · simp [map_to, hres4, h3eq, h2eq, h1eq, zeroT_mem_self,
                    is_unused_zeroE, hsf]
                · exact recInv_writeE _ R
                    (recInv_zeroT _ R hrecX t1 (Ne.symm hf2r)) t1 page.i1 _
                    (Or.inl (Ne.symm hf2r))
                · simp [List.nodup_cons, h01, Ne.symm hf1r, Ne.symm hf2r,
                    Ne.symm hf1t3, Ne.symm hf2t3, ht2f2]
                · rw [writeE_mem_ne_frame _ t1 page.i1 _ m.root page.i4 (Ne.symm hf2r),
                    zeroT_mem_ne _ t1 m.root page.i4 (Ne.symm hf2r),
                    writeE_mem_ne_frame _ t2 page.i2 _ m.root page.i4 (Ne.symm hf1r),
                    zeroT_mem_ne _ t2 m.root page.i4 (Ne.symm hf1r),
                    writeE_mem_ne_frame m t3 page.i3 _ m.root page.i4 h01]
                  exact h4T
                · rw [writeE_mem_ne_frame _ t1 page.i1 _ m.root page.i4 (Ne.symm hf2r),
                    zeroT_mem_ne _ t1 m.root page.i4 (Ne.symm hf2r),
                    writeE_mem_ne_frame _ t2 page.i2 _ m.root page.i4 (Ne.symm hf1r),
                    zeroT_mem_ne _ t2 m.root page.i4 (Ne.symm hf1r),
                    writeE_mem_ne_frame m t3 page.i3 _ m.root page.i4 h01]
                  exact h3val.symm
                · rw [writeE_mem_ne_frame _ t1 page.i1 _ t3 page.i3 (Ne.symm hf2t3),
                    zeroT_mem_ne _ t1 t3 page.i3 (Ne.symm hf2t3),
                    writeE_mem_ne_frame _ t2 page.i2 _ t3 page.i3 (Ne.symm hf1t3),
                    zeroT_mem_ne _ t2 t3 page.i3 (Ne.symm hf1t3),
                    writeE_mem_self m t3 page.i3 _]
                  exact tableDesc_isTable t2 hf1lt
                · rw [writeE_mem_ne_frame _ t1 page.i1 _ t3 page.i3 (Ne.symm hf2t3),
                    zeroT_mem_ne _ t1 t3 page.i3 (Ne.symm hf2t3),
                    writeE_mem_ne_frame _ t2 page.i2 _ t3 page.i3 (Ne.symm hf1t3),
                    zeroT_mem_ne _ t2 t3 page.i3 (Ne.symm hf1t3),
                    writeE_mem_self m t3 page.i3 _]
                  exact tableDesc_eFrame t2 hf1lt
                · rw [writeE_mem_ne_frame _ t1 page.i1 _ t2 page.i2 ht2f2,
                    zeroT_mem_ne _ t1 t2 page.i2 ht2f2,
                    writeE_mem_self _ t2 page.i2 _]
                  exact tableDesc_isTable t1 hf2lt
                · rw [writeE_mem_ne_frame _ t1 page.i1 _ t2 page.i2 ht2f2,
                    zeroT_mem_ne _ t1 t2 page.i2 ht2f2,
                    writeE_mem_self _ t2 page.i2 _]
                  exact tableDesc_eFrame t1 hf2lt
                · exact writeE_mem_self _ t1 page.i1 _
    · -- level 3: created table  — shapes (C, C, C)
      have h4z : m.mem m.root page.i4 = ⟨0⟩ := unused_is_zero _ h3u
      have hpt : pathTables m page = [m.root] := by
        simp only [pathTables, h4z, isTableE_zeroE, Bool.false_eq_true, if_false]
      have hf1mem : f1 ∈ alloc.take 3 := by rw [halloc]; simp
      obtain ⟨hf1p, hf1lt⟩ := hfresh f1 hf1mem
      rw [hpt] at hf1p
      simp only [List.mem_singleton, List.not_mem_nil, or_false, List.mem_cons,
        not_or] at hf1p
      have hf1r : ¬f1 = m.root := hf1p
      have hrecW := recInv_writeE m R hrec m.root page.i4 (tableDesc f1)
        (Or.inr (Ne.symm hi4))
      have hchar := resolve_rrra (m.writeE m.root page.i4 (tableDesc f1)) R hrecW page.i4
      rw [writeE_root] at hchar
      rw [p3_page_eq] at h3res
      have ht3 : t3 = f1 := created_extract m
        ⟨R, R, R, page.i4⟩ m.root page.i4 f1 t3 h3res hchar hf1lt
      subst ht3
      cases k2 : (create_next_table ((m.writeE m.root page.i4 (tableDesc t3)).zeroT t3)
          t3 page.i3 (RecursivePageTable.p2_page ⟨R⟩ page) rest1).2.2 with
      | err e =>
        have hbad : (map_to ⟨R⟩ page frame fl at' m alloc).2.2 = .err e := by
          simp [map_to, hres4, h3eq, k2]
        rw [hbad] at hok; exact absurd hok (by simp)
      | fault =>
        have hbad : (map_to ⟨R⟩ page frame fl at' m alloc).2.2 = .fault := by
          simp [map_to, hres4, h3eq, k2]
        rw [hbad] at hok; exact absurd hok (by simp)
      | ok t2 =>
        rcases cnt_ok_inv ((m.writeE m.root page.i4 (tableDesc t3)).zeroT t3)
            t3 page.i3 (RecursivePageTable.p2_page ⟨R⟩ page) rest1 t2 k2 with
          ⟨h2u, -, -, -⟩ | ⟨f2, rest2, halloc2, h2u, h2res, h2eq⟩
        · exfalso
          rw [zeroT_mem_self, is_unused_zeroE] at h2u
          exact absurd h2u (by simp)
        · have hf2mem : f2 ∈ alloc.take 3 := by rw [halloc, halloc2]; simp
          obtain ⟨hf2p, hf2lt⟩ := hfresh f2 hf2mem
          rw [hpt] at hf2p
          simp only [List.mem_singleton, List.not_mem_nil, or_false, List.mem_cons,
            not_or] at hf2p
          have hf2r : ¬f2 = m.root := hf2p
          have htk := htake
          rw [halloc, halloc2] at htk
          simp only [List.take_succ_cons, List.nodup_cons, List.mem_cons,
            not_or] at htk
          obtain ⟨⟨ht3f2, -⟩, -⟩ := htk
          have hrec1 : recInv ((m.writeE m.root page.i4 (tableDesc t3)).zeroT t3) R :=
            recInv_zeroT _ R hrecW t3 (Ne.symm hf1r)
          have hrecY := recInv_writeE _ R hrec1 t3 page.i3 (tableDesc f2)
            (Or.inl (Ne.symm hf1r))
          have hA : isTableE ((((m.writeE m.root page.i4 (tableDesc t3)).zeroT t3).writeE
              t3 page.i3 (tableDesc f2)).mem
              (((m.writeE m.root page.i4 (tableDesc t3)).zeroT t3).writeE
                t3 page.i3 (tableDesc f2)).root page.i4) = true := by
            simp only [writeE_root, zeroT_root]
            rw [writeE_mem_ne_frame _ t3 page.i3 _ m.root page.i4 (Ne.symm hf1r),
              zeroT_mem_ne _ t3 m.root page.i4 (Ne.symm hf1r),
              writeE_mem_self m m.root page.i4 _]
            exact tableDesc_isTable t3 hf1lt
          have hchar2 := resolve_rrab (((m.writeE m.root page.i4 (tableDesc t3)).zeroT
              t3).writeE t3 page.i3 (tableDesc f2)) R hrecY page.i4 page.i3 hA
          simp only [writeE_root, zeroT_root] at hchar2
          rw [writeE_mem_ne_frame _ t3 page.i3 _ m.root page.i4 (Ne.symm hf1r),
            zeroT_mem_ne _ t3 m.root page.i4 (Ne.symm hf1r),
            writeE_mem_self m m.root page.i4 _,
            tableDesc_eFrame t3 hf1lt] at hchar2
          rw [p2_page_eq] at h2res
          have ht2 : t2 = f2 := created_extract
            ((m.writeE m.root page.i4 (tableDesc t3)).zeroT t3)
            ⟨R, R, page.i4, page.i3⟩ t3 page.i3 f2 t2 h2res hchar2 hf2lt
          subst ht2
          cases k1 : (create_next_table ((((m.writeE m.root page.i4
              (tableDesc t3)).zeroT t3).writeE t3 page.i3 (tableDesc t2)).zeroT t2)
              t2 page.i2 (RecursivePageTable.p1_page ⟨R⟩ page) rest2).2.2 with
          | err e =>
            have hbad : (map_to ⟨R⟩ page frame fl at' m alloc).2.2 = .err e := by
              simp [map_to, hres4, h3eq, h2eq, k1]
            rw [hbad] at hok; exact absurd hok (by simp)
          | fault =>
            have hbad : (map_to ⟨R⟩ page frame fl at' m alloc).2.2 = .fault := by
              simp [map_to, hres4, h3eq, h2eq, k1]
            rw [hbad] at hok; exact absurd hok (by simp)
          | ok t1 =>
            rcases cnt_ok_inv ((((m.writeE m.root page.i4
                (tableDesc t3)).zeroT t3).writeE t3 page.i3 (tableDesc t2)).zeroT t2)
                t2 page.i2 (RecursivePageTable.p1_page ⟨R⟩ page) rest2 t1 k1 with
              ⟨h1u, -, -, -⟩ | ⟨f3, rest3, halloc3, h1u, h1res, h1eq⟩
            · exfalso
              rw [zeroT_mem_self, is_unused_zeroE] at h1u
              exact absurd h1u (by simp)
            · have hf3mem : f3 ∈ alloc.take 3 := by rw [halloc, halloc2, halloc3]; simp
              obtain ⟨hf3p, hf3lt⟩ := hfresh f3 hf3mem
              rw [hpt] at hf3p
              simp only [List.mem_singleton, List.not_mem_nil, or_false, List.mem_cons,
                not_or] at hf3p
              have hf3r : ¬f3 = m.root := hf3p
              have htk := htake
              rw [halloc, halloc2, halloc3] at htk
              simp only [List.take_succ_cons, List.take_zero, List.nodup_cons,
                List.mem_cons, List.mem_singleton, List.not_mem_nil, or_false,
                not_or, List.nodup_nil, and_true] at htk
              obtain ⟨⟨-, ht3f3⟩, ht2f3, -⟩ := htk
              have hrec2 : recInv ((((m.writeE m.root page.i4
                  (tableDesc t3)).zeroT t3).writeE t3 page.i3 (tableDesc t2)).zeroT t2) R :=
                recInv_zeroT _ R hrecY t2 (Ne.symm hf2r)
              have hrecZ := recInv_writeE _ R hrec2 t2 page.i2 (tableDesc f3)
                (Or.inl (Ne.symm hf2r))
              have hA3 : isTableE ((((((m.writeE m.root page.i4
                  (tableDesc t3)).zeroT t3).writeE t3 page.i3 (tableDesc t2)).zeroT
                  t2).writeE t2 page.i2 (tableDesc f3)).mem
                  (((((m.writeE m.root page.i4 (tableDesc t3)).zeroT t3).writeE
                    t3 page.i3 (tableDesc t2)).zeroT t2).writeE
                    t2 page.i2 (tableDesc f3)).root page.i4) = true := by
                simp only [writeE_root, zeroT_root]
                rw [writeE_mem_ne_frame _ t2 page.i2 _ m.root page.i4 (Ne.symm hf2r),
                  zeroT_mem_ne _ t2 m.root page.i4 (Ne.symm hf2r),
                  writeE_mem_ne_frame _ t3 page.i3 _ m.root page.i4 (Ne.symm hf1r),
                  zeroT_mem_ne _ t3 m.root page.i4 (Ne.symm hf1r),
                  writeE_mem_self m m.root page.i4 _]
                exact tableDesc_isTable t3 hf1lt
              have hB3 : isTableE ((((((m.writeE m.root page.i4 (tableDesc t3)).zeroT t3).writeE t3 page.i3 (tableDesc t2)).zeroT t2).writeE t2 page.i2 (tableDesc f3)).mem (eFrame ((((((m.writeE m.root page.i4 (tableDesc t3)).zeroT t3).writeE t3 page.i3 (tableDesc t2)).zeroT t2).writeE t2 page.i2 (tableDesc f3)).mem (((((m.writeE m.root page.i4 (tableDesc t3)).zeroT t3).writeE t3 page.i3 (tableDesc t2)).zeroT t2).writeE t2 page.i2 (tableDesc f3)).root page.i4)) page.i3) = true := by
                simp only [writeE_root, zeroT_root]
                rw [writeE_mem_ne_frame _ t2 page.i2 _ m.root page.i4 (Ne.symm hf2r),
                  zeroT_mem_ne _ t2 m.root page.i4 (Ne.symm hf2r),
                  writeE_mem_ne_frame _ t3 page.i3 _ m.root page.i4 (Ne.symm hf1r),
                  zeroT_mem_ne _ t3 m.root page.i4 (Ne.symm hf1r),
                  writeE_mem_self m m.root page.i4 _,
                  tableDesc_eFrame t3 hf1lt,
                  writeE_mem_ne_frame _ t2 page.i2 _ t3 page.i3 ht3f2,
                  zeroT_mem_ne _ t2 t3 page.i3 ht3f2,
                  writeE_mem_self _ t3 page.i3 _]
                exact tableDesc_isTable t2 hf2lt
              have hchar3 := resolve_rabc (((((m.writeE m.root page.i4
                  (tableDesc t3)).zeroT t3).writeE t3 page.i3 (tableDesc t2)).zeroT
                  t2).writeE t2 page.i2 (tableDesc f3)) R hrecZ
                page.i4 page.i3 page.i2 hA3 hB3
              simp only [writeE_root, zeroT_root] at hchar3
              rw [writeE_mem_ne_frame _ t2 page.i2 _ m.root page.i4 (Ne.symm hf2r),
                zeroT_mem_ne _ t2 m.root page.i4 (Ne.symm hf2r),
                writeE_mem_ne_frame _ t3 page.i3 _ m.root page.i4 (Ne.symm hf1r),
                zeroT_mem_ne _ t3 m.root page.i4 (Ne.symm hf1r),
                writeE_mem_self m m.root page.i4 _,
                tableDesc_eFrame t3 hf1lt,
                writeE_mem_ne_frame _ t2 page.i2 _ t3 page.i3 ht3f2,
                zeroT_mem_ne _ t2 t3 page.i3 ht3f2,
                writeE_mem_self _ t3 page.i3 _,
                tableDesc_eFrame t2 hf2lt] at hchar3
              rw [p1_page_eq] at h1res
              have ht1 : t1 = f3 := created_extract
                ((((m.writeE m.root page.i4 (tableDesc t3)).zeroT t3).writeE
                  t3 page.i3 (tableDesc t2)).zeroT t2)
                ⟨R, page.i4, page.i3, page.i2⟩ t2 page.i2 f3 t1 h1res hchar3 hf3lt
              subst ht1
              cases kT : PageTableFlags.contains fl PageTableFlags.TABLE_OR_PAGE with
              | false =>
                have hsf : PageTableEntry.set_frame frame fl at' = none := by
                  simp [PageTableEntry.set_frame, kT]
                have hbad : (map_to ⟨R⟩ page frame fl at' m alloc).2.2 = .fault := by
                  simp [map_to, hres4, h3eq, h2eq, h1eq, zeroT_mem_self,
                    is_unused_zeroE, hsf]
                rw [hbad] at hok; exact absurd hok (by simp)
              | true =>
                have hsf := set_frame_eq frame fl at' kT
                refine ⟨t3, t2, t1,
                  ((((((m.writeE m.root page.i4 (tableDesc t3)).zeroT t3).writeE
                    t3 page.i3 (tableDesc t2)).zeroT t2).writeE t2 page.i2
                    (tableDesc t1)).zeroT t1).writeE t1 page.i1 (leafDesc frame fl at'),
                  rest3,
                  ?_, rfl, ?_, ?_, ?_, ?_, ?_, ?_, ?_, ?_, ?_, rfl⟩
                · simp [map_to, hres4, h3eq, h2eq, h1eq, zeroT_mem_self,
                    is_unused_zeroE, hsf]
                · exact recInv_writeE _ R
                    (recInv_zeroT _ R hrecZ t1 (Ne.symm hf3r)) t1 page.i1 _
                    (Or.inl (Ne.symm hf3r))
                · simp [List.nodup_cons, Ne.symm hf1r, Ne.symm hf2r, Ne.symm hf3r,
                    ht3f2, ht3f3, ht2f3]
                · rw [writeE_mem_ne_frame _ t1 page.i1 _ m.root page.i4 (Ne.symm hf3r),
                    zeroT_mem_ne _ t1 m.root page.i4 (Ne.symm hf3r),
                    writeE_mem_ne_frame _ t2 page.i2 _ m.root page.i4 (Ne.symm hf2r),
                    zeroT_mem_ne _ t2 m.root page.i4 (Ne.symm hf2r),
                    writeE_mem_ne_frame _ t3 page.i3 _ m.root page.i4 (Ne.symm hf1r),
                    zeroT_mem_ne _ t3 m.root page.i4 (Ne.symm hf1r),
                    writeE_mem_self m m.root page.i4 _]
                  exact tableDesc_isTable t3 hf1lt
                · rw [writeE_mem_ne_frame _ t1 page.i1 _ m.root page.i4 (Ne.symm hf3r),
                    zeroT_mem_ne _ t1 m.root page.i4 (Ne.symm hf3r),
                    writeE_mem_ne_frame _ t2 page.i2 _ m.root page.i4 (Ne.symm hf2r),
                    zeroT_mem_ne _ t2 m.root page.i4 (Ne.symm hf2r),
                    writeE_mem_ne_frame _ t3 page.i3 _ m.root page.i4 (Ne.symm hf1r),
                    zeroT_mem_ne _ t3 m.root page.i4 (Ne.symm hf1r),
                    writeE_mem_self m m.root page.i4 _]
                  exact tableDesc_eFrame t3 hf1lt
                · rw [writeE_mem_ne_frame _ t1 page.i1 _ t3 page.i3 ht3f3,
                    zeroT_mem_ne _ t1 t3 page.i3 ht3f3,
                    writeE_mem_ne_frame _ t2 page.i2 _ t3 page.i3 ht3f2,
                    zeroT_mem_ne _ t2 t3 page.i3 ht3f2,
                    writeE_mem_self _ t3 page.i3 _]
                  exact tableDesc_isTable t2 hf2lt
                · rw [writeE_mem_ne_frame _ t1 page.i1 _ t3 page.i3 ht3f3,
                    zeroT_mem_ne _ t1 t3 page.i3 ht3f3,
                    writeE_mem_ne_frame _ t2 page.i2 _ t3 page.i3 ht3f2,
                    zeroT_mem_ne _ t2 t3 page.i3 ht3f2,
                    writeE_mem_self _ t3 page.i3 _]
                  exact tableDesc_eFrame t2 hf2lt
                · rw [writeE_mem_ne_frame _ t1 page.i1 _ t2 page.i2 ht2f3,
                    zeroT_mem_ne _ t1 t2 page.i2 ht2f3,
                    writeE_mem_self _ t2 page.i2 _]
                  exact tableDesc_isTable t1 hf3lt
                · rw [writeE_mem_ne_frame _ t1 page.i1 _ t2 page.i2 ht2f3,
                    zeroT_mem_ne _ t1 t2 page.i2 ht2f3,
                    writeE_mem_self _ t2 page.i2 _]
                  exact tableDesc_eFrame t1 hf3lt
                · exact writeE_mem_self _ t1 page.i1 _

/-! ### Walk consequences -/

theorem frame_of_table (e : PageTableEntry) (h : isTableE e = true) :
    e.frame = .ok (eFrame e) := by
  rw [isTableE, Bool.and_eq_true] at h
  have hb : e.is_block = false := by
    cases hb' : e.is_block
    · rfl
    · rw [hb'] at h; simp at h
  rw [PageTableEntry.frame, h.1, hb]
  rfl

theorem frame_zeroE : (⟨0⟩ : PageTableEntry).frame = .error .FrameNotPresent := rfl

theorem get_entry_of_path (m' : Machine) (R : Fin 512) (page : Page4K)
    (t3 t2 t1 : Nat)
    (hrec' : recInv m' R)
    (h4 : isTableE (m'.mem m'.root page.i4) = true)
    (e4 : eFrame (m'.mem m'.root page.i4) = t3)
    (h3 : isTableE (m'.mem t3 page.i3) = true)
    (e3 : eFrame (m'.mem t3 page.i3) = t2)
    (h2 : isTableE (m'.mem t2 page.i2) = true)
    (e2 : eFrame (m'.mem t2 page.i2) = t1) :
    get_entry ⟨R⟩ page m' = .ok (m'.mem t1 page.i1) := by
  have r4 := resolve_rrrr m' R hrec'
  have r3 := resolve_rrra_table m' R hrec' page.i4 h4
  rw [e4] at r3
  have h3' : isTableE (m'.mem (eFrame (m'.mem m'.root page.i4)) page.i3) = true := by
    rw [e4]; exact h3
  have r2 := resolve_rrab_table m' R hrec' page.i4 page.i3 h4 h3'
  rw [e4, e3] at r2
  have h2' : isTableE (m'.mem
      (eFrame (m'.mem (eFrame (m'.mem m'.root page.i4)) page.i3)) page.i2) = true := by
    rw [e4, e3]; exact h2
  have r1 := resolve_rabc_table m' R hrec' page.i4 page.i3 page.i2 h4 h3' h2'
  rw [e4, e3, e2] at r1
  simp only [get_entry, p4_page_eq, p3_page_eq, p2_page_eq, p1_page_eq,
    r4, r3, r2, r1, isTable_not_unused _ h4, isTable_not_unused _ h3,
    isTable_not_unused _ h2, Bool.false_eq_true, if_false]

theorem translate_of_path (m' : Machine) (R : Fin 512) (page : Page4K)
    (frame fl at' t3 t2 t1 : Nat)
    (hrec' : recInv m' R)
    (h4 : isTableE (m'.mem m'.root page.i4) = true)
    (e4 : eFrame (m'.mem m'.root page.i4) = t3)
    (h3 : isTableE (m'.mem t3 page.i3) = true)
    (e3 : eFrame (m'.mem t3 page.i3) = t2)
    (h2 : isTableE (m'.mem t2 page.i2) = true)
    (e2 : eFrame (m'.mem t2 page.i2) = t1)
    (hleaf : m'.mem t1 page.i1 = leafDesc frame fl at')
    (hfl : fl &&& PageTableFlags.ALL = fl)
    (hat : at' &&& MEMORY_ATTR_MASK = at')
    (hf : frame < 2 ^ 36)
    (hT : PageTableFlags.contains fl PageTableFlags.TABLE_OR_PAGE = true) :
    translate_page ⟨R⟩ page m' = .ok frame := by
  have hg := get_entry_of_path m' R page t3 t2 t1 hrec' h4 e4 h3 e3 h2 e2
  rw [hleaf] at hg
  have hT' : fl &&& PageTableFlags.TABLE_OR_PAGE = PageTableFlags.TABLE_OR_PAGE :=
    (contains_iff _ _).1 hT
  have hu := leafDesc_is_unused frame fl at' hT' hat
  have ha := leafDesc_addr frame fl at' hfl hat hf
  simp only [translate_page, hg, hu, Bool.false_eq_true, if_false, ha,
    PhysFrame.from_start_address, shl12_mod, if_pos, shl12_div]

theorem unmap_of_path (m' : Machine) (R : Fin 512) (page : Page4K)
    (frame fl at' t3 t2 t1 : Nat)
    (hrec' : recInv m' R)
    (h4 : isTableE (m'.mem m'.root page.i4) = true)
    (e4 : eFrame (m'.mem m'.root page.i4) = t3)
    (h3 : isTableE (m'.mem t3 page.i3) = true)
    (e3 : eFrame (m'.mem t3 page.i3) = t2)
    (h2 : isTableE (m'.mem t2 page.i2) = true)
    (e2 : eFrame (m'.mem t2 page.i2) = t1)
    (hleaf : m'.mem t1 page.i1 = leafDesc frame fl at')
    (hfl : fl &&& PageTableFlags.ALL = fl)
    (hat : at' &&& MEMORY_ATTR_MASK = at')
    (hf : frame < 2 ^ 36)
    (hV : PageTableFlags.contains fl PageTableFlags.VALID = true)
    (hT : PageTableFlags.contains fl PageTableFlags.TABLE_OR_PAGE = true) :
    unmap ⟨R⟩ page m' = (m'.writeE t1 page.i1 ⟨0⟩, .ok (frame, page)) := by
  have r4 := resolve_rrrr m' R hrec'
  have r3 := resolve_rrra_table m' R hrec' page.i4 h4
  rw [e4] at r3
  have h3' : isTableE (m'.mem (eFrame (m'.mem m'.root page.i4)) page.i3) = true := by
    rw [e4]; exact h3
  have r2 := resolve_rrab_table m' R hrec' page.i4 page.i3 h4 h3'
  rw [e4, e3] at r2
  have h2' : isTableE (m'.mem
      (eFrame (m'.mem (eFrame (m'.mem m'.root page.i4)) page.i3)) page.i2) = true := by
    rw [e4, e3]; exact h2
  have r1 := resolve_rabc_table m' R hrec' page.i4 page.i3 page.i2 h4 h3' h2'
  rw [e4, e3, e2] at r1
  have hfr := leafDesc_frame frame fl at' hfl hat hf hV hT
  simp only [unmap, p4_page_eq, p3_page_eq, p2_page_eq, p1_page_eq,
    r4, r3, r2, r1, frame_of_table _ h4, frame_of_table _ h3, frame_of_table _ h2,
    hleaf, hfr]

theorem get_entry_no_huge (m2 : Machine) (r : RecursivePageTable) (p2 : Page4K) :
    get_entry r p2 m2 ≠ .err .ParentEntryHugePage := by
  intro h
  unfold get_entry at h
  split at h
  · simp at h
  split at h
  · simp at h
  split at h
  · simp at h
  split at h
  · simp at h
  split at h
  · simp at h
  split at h
  · simp at h
  split at h
  · simp at h
  · simp at h

/-! ### Claim theorems -/

/-- C1: on a well-formed recursive page table (recursive invariant holds, the
page is outside the recursive slot, the tables on the page's path are
pairwise distinct, the allocator hands out fresh frames) and for well-typed
flags, attribute and frame values: if `map_to(P, F, flags, attr, allocator)`
succeeds, then an immediately following `translate_page(P)` returns exactly
the frame F that was mapped. -/
theorem C1_map_then_translate
    (m : Machine) (R : Fin 512) (page : Page4K) (frame fl at' : Nat) (alloc : List Nat)
    (hrec : recInv m R) (hi4 : page.i4 ≠ R)
    (hnd : (pathTables m page).Nodup)
    (hfresh : ∀ f ∈ alloc.take 3, f ∉ pathTables m page ∧ f < 2 ^ 36)
    (htake : (alloc.take 3).Nodup)
    (hfl : fl &&& PageTableFlags.ALL = fl)
    (hat : at' &&& MEMORY_ATTR_MASK = at')
    (hf : frame < 2 ^ 36)
    (hok : (map_to ⟨R⟩ page frame fl at' m alloc).2.2 = .ok page) :
    translate_page ⟨R⟩ page (map_to ⟨R⟩ page frame fl at' m alloc).1 = .ok frame := by
  obtain ⟨t3, t2, t1, m', a', hmap, hroot, hrec', hnod, h4, e4, h3, e3, h2, e2, hleaf, hT⟩ :=
    mapTo_ok_shape m R page frame fl at' alloc hrec hi4 hnd hfresh htake hok
  rw [hmap]
  have h4' : isTableE (m'.mem m'.root page.i4) = true := by rw [hroot]; exact h4
  have e4' : eFrame (m'.mem m'.root page.i4) = t3 := by rw [hroot]; exact e4
  exact translate_of_path m' R page frame fl at' t3 t2 t1 hrec' h4' e4' h3 e3 h2 e2
    hleaf hfl hat hf hT

/-- Witness for C1 at a concrete input: in the machine `M0` (empty but for
the recursive root), mapping page (1,0,0,0) to frame 5 with flags
VALID | TABLE_OR_PAGE | AF succeeds and `translate_page` then returns 5. -/
theorem C1_witness :
    translate_page ⟨(0 : Fin 512)⟩ P0
      (map_to ⟨(0 : Fin 512)⟩ P0 5 0x403 0x300 M0 [2, 3, 4]).1 = .ok 5 :=
  C1_map_then_translate M0 0 P0 5 0x403 0x300 [2, 3, 4] ⟨by decide, by decide⟩ (by decide)
    (by decide) (by decide) (by decide) (by decide) (by decide) (by decide) (by decide)

/-- C2: for an unused entry, `create_next_table` takes the allocator's frame,
installs it into the entry with the default table flags (VALID and
TABLE_OR_PAGE) and the normal-cacheable memory attribute, zeroes the newly
reachable table and returns it, rather than failing.  `hres` states that the
supplied `next_table_page` is wired to the entry as the documented
precondition demands. -/
theorem C2_create_next_table_spec
    (m : Machine) (parent : Nat) (idx : Fin 512) (v : Page4K) (f : Nat) (rest : List Nat)
    (hempty : m.mem parent idx = ⟨0⟩)
    (hres : (m.writeE parent idx (tableDesc f)).resolve v = some f)
    (hpf : parent ≠ f)
    (hf : f < 2 ^ 36) :
    create_next_table m parent idx v (f :: rest) =
      ((m.writeE parent idx (tableDesc f)).zeroT f, rest, .ok f) ∧
    ((m.writeE parent idx (tableDesc f)).zeroT f).mem parent idx = tableDesc f ∧
    (tableDesc f).flags = PageTableFlags.default_table ∧
    (tableDesc f).attr = MairNormal.attr_value ∧
    (∀ j, ((m.writeE parent idx (tableDesc f)).zeroT f).mem f j = ⟨0⟩) := by
  have h0 : (m.mem parent idx).is_unused = true := by rw [hempty]; rfl
  refine ⟨?_, ?_, ?_, tableDesc_attr f, fun j => zeroT_mem_self _ f j⟩
  · rw [cnt_created m parent idx v f rest h0, hres]
  · rw [zeroT_mem_ne (m.writeE parent idx (tableDesc f)) f parent idx hpf,
      writeE_mem_self]
  · rw [tableDesc_flags f hf]
    rfl

/-- Witness for C2 at a concrete input: installing frame 7 into the unused
entry 2 of `M0`'s root table. -/
theorem C2_witness :
    create_next_table M0 1 2 ⟨0, 0, 0, 2⟩ (7 :: [8]) =
      ((M0.writeE 1 2 (tableDesc 7)).zeroT 7, [8], .ok 7) ∧
    ((M0.writeE 1 2 (tableDesc 7)).zeroT 7).mem 1 2 = tableDesc 7 ∧
    (tableDesc 7).flags = PageTableFlags.default_table ∧
    (tableDesc 7).attr = MairNormal.attr_value := by
  have h := C2_create_next_table_spec M0 1 2 ⟨0, 0, 0, 2⟩ 7 [8] (by decide) (by decide)
    (by decide) (by decide)
  exact ⟨h.1, h.2.1, h.2.2.1, h.2.2.2.1⟩

/-- C6: recursive-addressing consistency.  Under the recursive-mapping
invariant, if independently walking the real tables for `page` yields
table frames (t3, t2, t1), then the virtual pages assembled by `p4_page`,
`p3_page`, `p2_page` and `p1_page` — indices (R,R,R,R), (R,R,R,i4),
(R,R,i4,i3) and (R,i4,i3,i2) — are resolved by the hardware walk to the
root, level-3, level-2 and level-1 table frames respectively. -/
theorem C6_recursive_addressing (m : Machine) (R : Fin 512) (page : Page4K)
    (t3 t2 t1 : Nat) (hrec : recInv m R)
    (hdir : directTables m page = some (t3, t2, t1)) :
    m.resolve (RecursivePageTable.p4_page ⟨R⟩ page) = some m.root ∧
    m.resolve (RecursivePageTable.p3_page ⟨R⟩ page) = some t3 ∧
    m.resolve (RecursivePageTable.p2_page ⟨R⟩ page) = some t2 ∧
    m.resolve (RecursivePageTable.p1_page ⟨R⟩ page) = some t1 := by
  unfold directTables at hdir
  cases hk4 : entryKind (m.mem m.root page.i4) with
  | invalid => rw [hk4] at hdir; simp at hdir
  | block b => rw [hk4] at hdir; simp at hdir
  | table a =>
    simp only [hk4] at hdir
    obtain ⟨h4, ha⟩ := entryKind_table_inv _ _ hk4
    cases hk3 : entryKind (m.mem a page.i3) with
    | invalid => simp [hk3] at hdir
    | block b => simp [hk3] at hdir
    | table b =>
      simp only [hk3] at hdir
      obtain ⟨h3, hb⟩ := entryKind_table_inv _ _ hk3
      cases hk2 : entryKind (m.mem b page.i2) with
      | invalid => simp [hk2] at hdir
      | block c => simp [hk2] at hdir
      | table c =>
        simp only [hk2, Option.some.injEq, Prod.mk.injEq] at hdir
        obtain ⟨h2, hc⟩ := entryKind_table_inv _ _ hk2
        obtain ⟨hat3, hbt2, hct1⟩ := hdir
        refine ⟨by rw [p4_page_eq]; exact resolve_rrrr m R hrec, ?_, ?_, ?_⟩
        · rw [p3_page_eq, resolve_rrra_table m R hrec page.i4 h4, ← ha, hat3]
        · have h3' : isTableE (m.mem (eFrame (m.mem m.root page.i4)) page.i3) = true := by
            rw [← ha]; exact h3
          rw [p2_page_eq, resolve_rrab_table m R hrec page.i4 page.i3 h4 h3',
            ← ha, ← hb, hbt2]
        · have h3' : isTableE (m.mem (eFrame (m.mem m.root page.i4)) page.i3) = true := by
            rw [← ha]; exact h3
          have h2' : isTableE (m.mem (eFrame (m.mem
              (eFrame (m.mem m.root page.i4)) page.i3)) page.i2) = true := by
            rw [← ha, ← hb]; exact h2
          rw [p1_page_eq, resolve_rabc_table m R hrec page.i4 page.i3 page.i2 h4 h3' h2',
            ← ha, ← hb, ← hc, hct1]

/-- Witness for C6 at a concrete input: in `Mfull` the direct walk for
`Pfull` gives tables (5, 6, 7) and all four recursive addresses resolve to
the corresponding table frames. -/
theorem C6_witness :
    Mfull.resolve (RecursivePageTable.p4_page ⟨(0 : Fin 512)⟩ Pfull) = some Mfull.root ∧
    Mfull.resolve (RecursivePageTable.p3_page ⟨(0 : Fin 512)⟩ Pfull) = some 5 ∧
    Mfull.resolve (RecursivePageTable.p2_page ⟨(0 : Fin 512)⟩ Pfull) = some 6 ∧
    Mfull.resolve (RecursivePageTable.p1_page ⟨(0 : Fin 512)⟩ Pfull) = some 7 :=
  C6_recursive_addressing Mfull 0 Pfull 5 6 7 ⟨by decide, by decide⟩ (by decide)

/-- C9: `set_flags(f)` followed by `flags()` returns exactly `f`, and
`set_attr(a)` followed by `attr()` returns exactly `a`, for any well-typed
flags and attribute values; moreover each of the two operations leaves the
output-address bits 12 to 47 and the other operation's bit range unchanged. -/
theorem C9_flags_attr_roundtrip (e : PageTableEntry) (fl a : Nat)
    (hfl : fl &&& PageTableFlags.ALL = fl)
    (ha : a &&& MEMORY_ATTR_MASK = a) :
    (e.set_flags fl).flags = fl ∧
    (e.set_attr a).attr = a ∧
    (e.set_flags fl).addr = e.addr ∧
    (e.set_flags fl).attr = e.attr ∧
    (e.set_attr a).addr = e.addr ∧
    (e.set_attr a).flags = e.flags := by
  refine ⟨?_, ?_, ?_, ?_, ?_, ?_⟩
  · simp only [PageTableEntry.set_flags, PageTableEntry.flags]
    exact mask_write_read e.entry fl _ _ hfl (by decide)
  · simp only [PageTableEntry.set_attr, PageTableEntry.attr]
    exact mask_write_read e.entry a _ _ ha (by decide)
  · simp only [PageTableEntry.set_flags, PageTableEntry.addr]
    exact mask_write_keep e.entry fl _ _
      (land_zero_of_wf fl PageTableFlags.ALL ADDR_MASK hfl (by decide)) (by decide)
  · simp only [PageTableEntry.set_flags, PageTableEntry.attr]
    exact mask_write_keep e.entry fl _ _
      (land_zero_of_wf fl PageTableFlags.ALL MEMORY_ATTR_MASK hfl (by decide)) (by decide)
  · simp only [PageTableEntry.set_attr, PageTableEntry.addr]
    exact mask_write_keep e.entry a _ _
      (land_zero_of_wf a MEMORY_ATTR_MASK ADDR_MASK ha (by decide)) (by decide)
  · simp only [PageTableEntry.set_attr, PageTableEntry.flags]
    exact mask_write_keep e.entry a _ _
      (land_zero_of_wf a MEMORY_ATTR_MASK PageTableFlags.ALL ha (by decide)) (by decide)

/-- Witness for C9 at a concrete input. -/
theorem C9_witness :
    ((⟨0x123456789abc⟩ : PageTableEntry).set_flags 0x403).flags = 0x403 ∧
    ((⟨0x123456789abc⟩ : PageTableEntry).set_attr 0x304).attr = 0x304 ∧
    ((⟨0x123456789abc⟩ : PageTableEntry).set_flags 0x403).addr =
      (⟨0x123456789abc⟩ : PageTableEntry).addr ∧
    ((⟨0x123456789abc⟩ : PageTableEntry).set_flags 0x403).attr =
      (⟨0x123456789abc⟩ : PageTableEntry).attr ∧
    ((⟨0x123456789abc⟩ : PageTableEntry).set_attr 0x304).addr =
      (⟨0x123456789abc⟩ : PageTableEntry).addr ∧
    ((⟨0x123456789abc⟩ : PageTableEntry).set_attr 0x304).flags =
      (⟨0x123456789abc⟩ : PageTableEntry).flags :=
  C9_flags_attr_roundtrip ⟨0x123456789abc⟩ 0x403 0x304 (by decide) (by decide)

theorem blockDesc_not_unused (e : PageTableEntry) (h : isBlockDesc e = true) :
    e.is_unused = false := by
  rw [isBlockDesc, Bool.and_eq_true] at h
  exact valid_not_unused e h.1

theorem blockDesc_is_block (e : PageTableEntry) (h : isBlockDesc e = true) :
    e.is_block = true := by
  rw [isBlockDesc, Bool.and_eq_true] at h
  exact h.2

/-- C5: if the leaf entry of `page` is already in use (it holds a well-typed
page descriptor for frame `frame0`) and the whole table path to it exists,
then `map_to` for a new frame fails with `PageAlreadyMapped`, leaves the
machine and the allocator completely unchanged, and `translate_page`
afterwards still returns the originally mapped frame `frame0`. -/
theorem C5_already_mapped
    (m : Machine) (R : Fin 512) (page : Page4K)
    (frame0 fl0 at0 frame fl at' : Nat) (alloc : List Nat) (t3 t2 t1 : Nat)
    (hrec : recInv m R)
    (h4 : isTableE (m.mem m.root page.i4) = true)
    (e4 : eFrame (m.mem m.root page.i4) = t3)
    (h3 : isTableE (m.mem t3 page.i3) = true)
    (e3 : eFrame (m.mem t3 page.i3) = t2)
    (h2 : isTableE (m.mem t2 page.i2) = true)
    (e2 : eFrame (m.mem t2 page.i2) = t1)
    (hleaf : m.mem t1 page.i1 = leafDesc frame0 fl0 at0)
    (hfl0 : fl0 &&& PageTableFlags.ALL = fl0)
    (hat0 : at0 &&& MEMORY_ATTR_MASK = at0)
    (hf0 : frame0 < 2 ^ 36)
    (hT0 : PageTableFlags.contains fl0 PageTableFlags.TABLE_OR_PAGE = true) :
    map_to ⟨R⟩ page frame fl at' m alloc = (m, alloc, .err .PageAlreadyMapped) ∧
    translate_page ⟨R⟩ page m = .ok frame0 := by
  have hres4 : m.resolve (RecursivePageTable.p4_page ⟨R⟩ page) = some m.root := by
    rw [p4_page_eq]; exact resolve_rrrr m R hrec
  have hr3 : create_next_table m m.root page.i4
      (RecursivePageTable.p3_page ⟨R⟩ page) alloc = (m, alloc, .ok t3) := by
    rw [cnt_existing m m.root page.i4 _ alloc (isTable_not_unused _ h4)
      (isTable_not_block _ h4), p3_page_eq,
      resolve_rrra_table m R hrec page.i4 h4, e4]
  have hr2 : create_next_table m t3 page.i3
      (RecursivePageTable.p2_page ⟨R⟩ page) alloc = (m, alloc, .ok t2) := by
    rw [cnt_existing m t3 page.i3 _ alloc (isTable_not_unused _ h3)
      (isTable_not_block _ h3), p2_page_eq,
      resolve_rrab_table m R hrec page.i4 page.i3 h4 (by rw [e4]; exact h3), e4, e3]
  have hr1 : create_next_table m t2 page.i2
      (RecursivePageTable.p1_page ⟨R⟩ page) alloc = (m, alloc, .ok t1) := by
    rw [cnt_existing m t2 page.i2 _ alloc (isTable_not_unused _ h2)
      (isTable_not_block _ h2), p1_page_eq,
      resolve_rabc_table m R hrec page.i4 page.i3 page.i2 h4 (by rw [e4]; exact h3)
        (by rw [e4, e3]; exact h2), e4, e3, e2]
  have hT0' : fl0 &&& PageTableFlags.TABLE_OR_PAGE = PageTableFlags.TABLE_OR_PAGE :=
    (contains_iff fl0 PageTableFlags.TABLE_OR_PAGE).mp hT0
  have hnu : (m.mem t1 page.i1).is_unused = false := by
    rw [hleaf]; exact leafDesc_is_unused frame0 fl0 at0 hT0' hat0
  constructor
  · simp [map_to, hres4, hr3, hr2, hr1, hnu]
  · exact translate_of_path m R page frame0 fl0 at0 t3 t2 t1 hrec h4 e4 h3 e3 h2 e2
      hleaf hfl0 hat0 hf0 hT0

/-- Witness for C5 at a concrete input: in `Mfull` the page (2,3,4,5) is
already mapped to frame 9; remapping it to frame 11 fails with
`PageAlreadyMapped`, changes nothing, and `translate_page` still gives 9. -/
theorem C5_witness :
    map_to ⟨(0 : Fin 512)⟩ Pfull 11 0x403 0x300 Mfull [2, 3, 4] =
      (Mfull, [2, 3, 4], .err .PageAlreadyMapped) ∧
    translate_page ⟨(0 : Fin 512)⟩ Pfull Mfull = .ok 9 :=
  C5_already_mapped Mfull 0 Pfull 9 0x403 0x300 11 0x403 0x300 [2, 3, 4] 5 6 7
    ⟨by decide, by decide⟩ (by decide) (by decide) (by decide) (by decide) (by decide)
    (by decide) (by decide) (by decide) (by decide) (by decide) (by decide)

/-- C8: if the path of `page` passes through an intermediate entry that is
a valid block descriptor — at level 3 (a 512GiB region), level 2 (1GiB) or
level 1 (2MiB) — then `map_to` fails with `ParentEntryHugePage`, leaving
the machine and the allocator unchanged, so in particular no leaf
descriptor is installed. -/
theorem C8_parent_block
    (m : Machine) (R : Fin 512) (page : Page4K) (frame fl at' : Nat)
    (alloc : List Nat) (hrec : recInv m R)
    (hblk :
      isBlockDesc (m.mem m.root page.i4) = true ∨
      (isTableE (m.mem m.root page.i4) = true ∧
        isBlockDesc (m.mem (eFrame (m.mem m.root page.i4)) page.i3) = true) ∨
      (isTableE (m.mem m.root page.i4) = true ∧
        isTableE (m.mem (eFrame (m.mem m.root page.i4)) page.i3) = true ∧
        isBlockDesc (m.mem (eFrame (m.mem (eFrame (m.mem m.root page.i4)) page.i3))
          page.i2) = true)) :
    map_to ⟨R⟩ page frame fl at' m alloc = (m, alloc, .err .ParentEntryHugePage) := by
  have hres4 : m.resolve (RecursivePageTable.p4_page ⟨R⟩ page) = some m.root := by
    rw [p4_page_eq]; exact resolve_rrrr m R hrec
  rcases hblk with hb4 | ⟨h4, hb3⟩ | ⟨h4, h3, hb2⟩
  · have hr3 : create_next_table m m.root page.i4
        (RecursivePageTable.p3_page ⟨R⟩ page) alloc =
          (m, alloc, .err .ParentEntryHugePage) :=
      cnt_block m m.root page.i4 _ alloc (blockDesc_not_unused _ hb4)
        (blockDesc_is_block _ hb4)
    simp [map_to, hres4, hr3]
  · have hr3 : create_next_table m m.root page.i4
        (RecursivePageTable.p3_page ⟨R⟩ page) alloc =
          (m, alloc, .ok (eFrame (m.mem m.root page.i4))) := by
      rw [cnt_existing m m.root page.i4 _ alloc (isTable_not_unused _ h4)
        (isTable_not_block _ h4), p3_page_eq,
        resolve_rrra_table m R hrec page.i4 h4]
    have hr2 : create_next_table m (eFrame (m.mem m.root page.i4)) page.i3
        (RecursivePageTable.p2_page ⟨R⟩ page) alloc =
          (m, alloc, .err .ParentEntryHugePage) :=
      cnt_block m _ page.i3 _ alloc (blockDesc_not_unused _ hb3)
        (blockDesc_is_block _ hb3)
    simp [map_to, hres4, hr3, hr2]
  · have hr3 : create_next_table m m.root page.i4
        (RecursivePageTable.p3_page ⟨R⟩ page) alloc =
          (m, alloc, .ok (eFrame (m.mem m.root page.i4))) := by
      rw [cnt_existing m m.root page.i4 _ alloc (isTable_not_unused _ h4)
        (isTable_not_block _ h4), p3_page_eq,
        resolve_rrra_table m R hrec page.i4 h4]
    have hr2 : create_next_table m (eFrame (m.mem m.root page.i4)) page.i3
        (RecursivePageTable.p2_page ⟨R⟩ page) alloc =
          (m, alloc, .ok (eFrame (m.mem (eFrame (m.mem m.root page.i4)) page.i3))) := by
      rw [cnt_existing m (eFrame (m.mem m.root page.i4)) page.i3 _ alloc
        (isTable_not_unused _ h3) (isTable_not_block _ h3), p2_page_eq,
        resolve_rrab_table m R hrec page.i4 page.i3 h4 h3]
    have hr1 : create_next_table m
        (eFrame (m.mem (eFrame (m.mem m.root page.i4)) page.i3)) page.i2
        (RecursivePageTable.p1_page ⟨R⟩ page) alloc =
          (m, alloc, .err .ParentEntryHugePage) :=
      cnt_block m _ page.i2 _ alloc (blockDesc_not_unused _ hb2)
        (blockDesc_is_block _ hb2)
    simp [map_to, hres4, hr3, hr2, hr1]

/-- Witness for C8 at a concrete input: in `Mblk` the level-3 table holds a
valid 1GiB block covering `Pblk`, and mapping `Pblk` fails with
`ParentEntryHugePage` without touching anything. -/
theorem C8_witness :
    map_to ⟨(0 : Fin 512)⟩ Pblk 9 0x403 0x300 Mblk [2, 3, 4] =
      (Mblk, [2, 3, 4], .err .ParentEntryHugePage) :=
  C8_parent_block Mblk 0 Pblk 9 0x403 0x300 [2, 3, 4] ⟨by decide, by decide⟩
    (Or.inr (Or.inl (by decide)))

/-- C10: a `map_to` that fails midway is not rolled back.  Starting from an
empty root entry for `page` and an allocator holding a single frame `f1`,
`map_to` installs `f1` as the level-3 table, zeroes it, then fails with
`FrameAllocationFailed` at level 2 — and in the final machine the `f1`
table remains installed in the root entry (zeroed but linked), the
allocator's frame having been consumed, with only the leaf untouched. -/
theorem C10_partial_failure_persists
    (m : Machine) (R : Fin 512) (page : Page4K) (frame fl at' f1 : Nat)
    (hrec : recInv m R) (hi4 : page.i4 ≠ R)
    (hempty : m.mem m.root page.i4 = ⟨0⟩)
    (hf1r : f1 ≠ m.root) (hf1 : f1 < 2 ^ 36) :
    map_to ⟨R⟩ page frame fl at' m [f1] =
      ((m.writeE m.root page.i4 (tableDesc f1)).zeroT f1, [],
        .err .FrameAllocationFailed) ∧
    ((m.writeE m.root page.i4 (tableDesc f1)).zeroT f1).mem m.root page.i4 =
      tableDesc f1 ∧
    (∀ j, ((m.writeE m.root page.i4 (tableDesc f1)).zeroT f1).mem f1 j = ⟨0⟩) := by
  have hres4 : m.resolve (RecursivePageTable.p4_page ⟨R⟩ page) = some m.root := by
    rw [p4_page_eq]; exact resolve_rrrr m R hrec
  have h0 : (m.mem m.root page.i4).is_unused = true := by rw [hempty]; rfl
  have hrec1 : recInv (m.writeE m.root page.i4 (tableDesc f1)) R :=
    recInv_writeE m R hrec m.root page.i4 (tableDesc f1) (Or.inr (Ne.symm hi4))
  have hT1 : isTableE ((m.writeE m.root page.i4 (tableDesc f1)).mem
      (m.writeE m.root page.i4 (tableDesc f1)).root page.i4) = true := by
    rw [writeE_root, writeE_mem_self]
    exact tableDesc_isTable f1 hf1
  have hres3 : (m.writeE m.root page.i4 (tableDesc f1)).resolve
      (RecursivePageTable.p3_page ⟨R⟩ page) = some f1 := by
    rw [p3_page_eq, resolve_rrra_table _ R hrec1 page.i4 (by rw [writeE_root] at hT1; exact hT1),
      writeE_root, writeE_mem_self, tableDesc_eFrame f1 hf1]
  have hr3 : create_next_table m m.root page.i4
      (RecursivePageTable.p3_page ⟨R⟩ page) [f1] =
        ((m.writeE m.root page.i4 (tableDesc f1)).zeroT f1, [], .ok f1) := by
    rw [cnt_created m m.root page.i4 _ f1 [] h0, hres3]
  have h02 : (((m.writeE m.root page.i4 (tableDesc f1)).zeroT f1).mem f1
      page.i3).is_unused = true := by
    rw [zeroT_mem_self]; rfl
  have hr2 : create_next_table ((m.writeE m.root page.i4 (tableDesc f1)).zeroT f1)
      f1 page.i3 (RecursivePageTable.p2_page ⟨R⟩ page) [] =
        ((m.writeE m.root page.i4 (tableDesc f1)).zeroT f1, [],
          .err .FrameAllocationFailed) :=
    cnt_unused_nil _ f1 page.i3 _ h02
  refine ⟨?_, ?_, fun j => zeroT_mem_self _ f1 j⟩
  · simp [map_to, hres4, hr3, hr2]
  · rw [zeroT_mem_ne (m.writeE m.root page.i4 (tableDesc f1)) f1 m.root page.i4
      (Ne.symm hf1r), writeE_mem_self]

/-- Witness for C10 at a concrete input: mapping page (1,0,0,0) in the
near-empty machine `M0` with a one-frame allocator consumes frame 2 for the
level-3 table, fails with `FrameAllocationFailed`, and frame 2 stays
installed in the root entry. -/
theorem C10_witness :
    map_to ⟨(0 : Fin 512)⟩ P0 9 0x403 0x300 M0 [2] =
      ((M0.writeE M0.root P0.i4 (tableDesc 2)).zeroT 2, [],
        .err .FrameAllocationFailed) ∧
    ((M0.writeE M0.root P0.i4 (tableDesc 2)).zeroT 2).mem M0.root P0.i4 =
      tableDesc 2 ∧
    ((M0.writeE M0.root P0.i4 (tableDesc 2)).zeroT 2).mem 2 7 = ⟨0⟩ := by
  have h := C10_partial_failure_persists M0 0 P0 9 0x403 0x300 2
    ⟨by decide, by decide⟩ (by decide) (by decide) (by decide) (by decide)
  exact ⟨h.1, h.2.1, h.2.2 7⟩

theorem frame_not_huge (e : PageTableEntry) (h : isBlockDesc e = false) :
    e.frame ≠ .error .HugeFrame := by
  rw [PageTableEntry.frame]
  cases hV : PageTableFlags.contains e.flags PageTableFlags.VALID with
  | false => simp
  | true =>
    have hb : e.is_block = false := by
      rw [isBlockDesc, hV] at h
      simpa using h
    simp [hb]

/-- C3 counterexample: in `Mfull` the page (2,3,4,5) is mapped to frame 9;
`unmap` succeeds and returns frame 9, but the subsequent `get_entry` does
NOT fail with `PageNotMapped` — it returns the zeroed leaf entry with
`.ok`, because `get_entry` checks `is_unused` only at levels 4, 3 and 2 and
returns the level-1 entry unchecked. -/
theorem C3_counterexample :
    (unmap ⟨(0 : Fin 512)⟩ Pfull Mfull).2 = .ok (9, Pfull) ∧
    get_entry ⟨(0 : Fin 512)⟩ Pfull (unmap ⟨(0 : Fin 512)⟩ Pfull Mfull).1 =
      .ok ⟨0⟩ ∧
    ¬ (get_entry ⟨(0 : Fin 512)⟩ Pfull (unmap ⟨(0 : Fin 512)⟩ Pfull Mfull).1 =
      .err .PageNotMapped) := by decide

/-- C3 (amended): after a successful `map_to` of `page` to `frame` with
flags including VALID, `unmap(page)` succeeds and returns exactly `frame`;
the subsequent `get_entry(page)` returns the cleared (unused) leaf entry
with `.ok` rather than failing with `PageNotMapped`, and it is
`translate_page(page)` — which additionally tests the returned entry for
`is_unused` — that reports `PageNotMapped`. -/
theorem C3_unmap_roundtrip_amended
    (m : Machine) (R : Fin 512) (page : Page4K) (frame fl at' : Nat) (alloc : List Nat)
    (hrec : recInv m R) (hi4 : page.i4 ≠ R)
    (hnd : (pathTables m page).Nodup)
    (hfresh : ∀ f ∈ alloc.take 3, f ∉ pathTables m page ∧ f < 2 ^ 36)
    (htake : (alloc.take 3).Nodup)
    (hfl : fl &&& PageTableFlags.ALL = fl)
    (hat : at' &&& MEMORY_ATTR_MASK = at')
    (hf : frame < 2 ^ 36)
    (hV : PageTableFlags.contains fl PageTableFlags.VALID = true)
    (hok : (map_to ⟨R⟩ page frame fl at' m alloc).2.2 = .ok page) :
    (unmap ⟨R⟩ page (map_to ⟨R⟩ page frame fl at' m alloc).1).2 = .ok (frame, page) ∧
    get_entry ⟨R⟩ page (unmap ⟨R⟩ page (map_to ⟨R⟩ page frame fl at' m alloc).1).1 =
      .ok ⟨0⟩ ∧
    translate_page ⟨R⟩ page
      (unmap ⟨R⟩ page (map_to ⟨R⟩ page frame fl at' m alloc).1).1 =
      .err .PageNotMapped := by
  obtain ⟨t3, t2, t1, m', a', hmap, hroot, hrec', hnod, h4, e4, h3, e3, h2, e2, hleaf, hT⟩ :=
    mapTo_ok_shape m R page frame fl at' alloc hrec hi4 hnd hfresh htake hok
  simp only [hmap]
  have h4' : isTableE (m'.mem m'.root page.i4) = true := by rw [hroot]; exact h4
  have e4' : eFrame (m'.mem m'.root page.i4) = t3 := by rw [hroot]; exact e4
  have hun : unmap ⟨R⟩ page m' = (m'.writeE t1 page.i1 ⟨0⟩, .ok (frame, page)) :=
    unmap_of_path m' R page frame fl at' t3 t2 t1 hrec' h4' e4' h3 e3 h2 e2 hleaf
      hfl hat hf hV hT
  have hrt1 : m.root ≠ t1 := by
    intro h; rw [h] at hnod; simp at hnod
  have ht31 : t3 ≠ t1 := by
    intro h; rw [h] at hnod; simp at hnod
  have ht21 : t2 ≠ t1 := by
    intro h; rw [h] at hnod; simp at hnod
  have hrec2 : recInv (m'.writeE t1 page.i1 ⟨0⟩) R :=
    recInv_writeE m' R hrec' t1 page.i1 ⟨0⟩ (Or.inl (by rw [hroot]; exact hrt1))
  have g4 : (m'.writeE t1 page.i1 ⟨0⟩).mem (m'.writeE t1 page.i1 ⟨0⟩).root page.i4 =
      m'.mem m'.root page.i4 := by
    rw [writeE_root]
    exact writeE_mem_ne_frame m' t1 page.i1 ⟨0⟩ m'.root page.i4 (by rw [hroot]; exact hrt1)
  have g3 : (m'.writeE t1 page.i1 ⟨0⟩).mem t3 page.i3 = m'.mem t3 page.i3 :=
    writeE_mem_ne_frame m' t1 page.i1 ⟨0⟩ t3 page.i3 ht31
  have g2 : (m'.writeE t1 page.i1 ⟨0⟩).mem t2 page.i2 = m'.mem t2 page.i2 :=
    writeE_mem_ne_frame m' t1 page.i1 ⟨0⟩ t2 page.i2 ht21
  have hge : get_entry ⟨R⟩ page (m'.writeE t1 page.i1 ⟨0⟩) =
      .ok ((m'.writeE t1 page.i1 ⟨0⟩).mem t1 page.i1) :=
    get_entry_of_path (m'.writeE t1 page.i1 ⟨0⟩) R page t3 t2 t1 hrec2
      (by rw [g4]; exact h4') (by rw [g4]; exact e4')
      (by rw [g3]; exact h3) (by rw [g3]; exact e3)
      (by rw [g2]; exact h2) (by rw [g2]; exact e2)
  rw [writeE_mem_self] at hge
  refine ⟨?_, ?_, ?_⟩
  · rw [hun]
  · rw [hun]; exact hge
  · rw [hun]
    simp [translate_page, hge, PageTableEntry.is_unused]

/-- Witness for the amended C3 at a concrete input: map page (1,0,0,0) to
frame 5 in `M0`, then unmap it. -/
theorem C3_amended_witness :
    (unmap ⟨(0 : Fin 512)⟩ P0
      (map_to ⟨(0 : Fin 512)⟩ P0 5 0x403 0x300 M0 [2, 3, 4]).1).2 = .ok (5, P0) ∧
    get_entry ⟨(0 : Fin 512)⟩ P0 (unmap ⟨(0 : Fin 512)⟩ P0
      (map_to ⟨(0 : Fin 512)⟩ P0 5 0x403 0x300 M0 [2, 3, 4]).1).1 = .ok ⟨0⟩ ∧
    translate_page ⟨(0 : Fin 512)⟩ P0 (unmap ⟨(0 : Fin 512)⟩ P0
      (map_to ⟨(0 : Fin 512)⟩ P0 5 0x403 0x300 M0 [2, 3, 4]).1).1 =
      .err .PageNotMapped :=
  C3_unmap_roundtrip_amended M0 0 P0 5 0x403 0x300 [2, 3, 4] ⟨by decide, by decide⟩
    (by decide) (by decide) (by decide) (by decide) (by decide) (by decide) (by decide)
    (by decide) (by decide)

/-- C7 counterexample: in `Mblk` the level-3 table holds a valid 1GiB block
covering `Pblk`.  `unmap` fails with `ParentEntryHugePage`, but `get_entry`
does not fail with that error in the same situation — it dereferences the
(unresolvable) recursive level-2 table address instead, and in fact
`get_entry` never produces `ParentEntryHugePage` at all. -/
theorem C7_counterexample :
    (unmap ⟨(0 : Fin 512)⟩ Pblk Mblk).2 = .err .ParentEntryHugePage ∧
    ¬ (get_entry ⟨(0 : Fin 512)⟩ Pblk Mblk = .err .ParentEntryHugePage) := by decide

/-- C7 (amended): on a well-formed recursive table whose entries along the
walk of `page` are each either zero or a table descriptor, and whose leaf
entry is not a valid block: whenever `get_entry(page)` fails with
`PageNotMapped`, `unmap(page)` fails with `PageNotMapped` as well, and
neither operation reports `ParentEntryHugePage` — for `get_entry` this
holds unconditionally, as it can never produce that error. -/
theorem C7_unmap_lookup_errors_amended
    (m : Machine) (R : Fin 512) (page : Page4K) (t3 t2 t1 : Nat)
    (hrec : recInv m R)
    (e4 : eFrame (m.mem m.root page.i4) = t3)
    (e3 : eFrame (m.mem t3 page.i3) = t2)
    (e2 : eFrame (m.mem t2 page.i2) = t1)
    (hz4 : m.mem m.root page.i4 = ⟨0⟩ ∨ isTableE (m.mem m.root page.i4) = true)
    (hz3 : m.mem t3 page.i3 = ⟨0⟩ ∨ isTableE (m.mem t3 page.i3) = true)
    (hz2 : m.mem t2 page.i2 = ⟨0⟩ ∨ isTableE (m.mem t2 page.i2) = true)
    (hb1 : isBlockDesc (m.mem t1 page.i1) = false) :
    (get_entry ⟨R⟩ page m = .err .PageNotMapped →
      (unmap ⟨R⟩ page m).2 = .err .PageNotMapped) ∧
    (unmap ⟨R⟩ page m).2 ≠ .err .ParentEntryHugePage ∧
    get_entry ⟨R⟩ page m ≠ .err .ParentEntryHugePage := by
  have r4 := resolve_rrrr m R hrec
  rcases hz4 with hz | h4
  · have hun : (unmap ⟨R⟩ page m).2 = .err .PageNotMapped := by
      simp [unmap, p4_page_eq, r4, hz, frame_zeroE, frameErrorToUnmap]
    exact ⟨fun _ => hun, by rw [hun]; simp, get_entry_no_huge m ⟨R⟩ page⟩
  · have r3 := resolve_rrra_table m R hrec page.i4 h4
    rw [e4] at r3
    have f4 := frame_of_table _ h4
    rcases hz3 with hz | h3
    · have hun : (unmap ⟨R⟩ page m).2 = .err .PageNotMapped := by
        simp [unmap, p4_page_eq, p3_page_eq, r4, r3, f4, hz, frame_zeroE,
          frameErrorToUnmap]
      exact ⟨fun _ => hun, by rw [hun]; simp, get_entry_no_huge m ⟨R⟩ page⟩
    · have h3' : isTableE (m.mem (eFrame (m.mem m.root page.i4)) page.i3) = true := by
        rw [e4]; exact h3
      have r2 := resolve_rrab_table m R hrec page.i4 page.i3 h4 h3'
      rw [e4, e3] at r2
      have f3 := frame_of_table _ h3
      rcases hz2 with hz | h2
      · have hun : (unmap ⟨R⟩ page m).2 = .err .PageNotMapped := by
          simp [unmap, p4_page_eq, p3_page_eq, p2_page_eq, r4, r3, r2, f4, f3,
            hz, frame_zeroE, frameErrorToUnmap]
        exact ⟨fun _ => hun, by rw [hun]; simp, get_entry_no_huge m ⟨R⟩ page⟩
      · have h2' : isTableE (m.mem
            (eFrame (m.mem (eFrame (m.mem m.root page.i4)) page.i3)) page.i2) = true := by
          rw [e4, e3]; exact h2
        have r1 := resolve_rabc_table m R hrec page.i4 page.i3 page.i2 h4 h3' h2'
        rw [e4, e3, e2] at r1
        have f2 := frame_of_table _ h2
        have hge : get_entry ⟨R⟩ page m = .ok (m.mem t1 page.i1) :=
          get_entry_of_path m R page t3 t2 t1 hrec h4 e4 h3 e3 h2 e2
        refine ⟨?_, ?_, get_entry_no_huge m ⟨R⟩ page⟩
        · intro hcon
          rw [hge] at hcon
          exact absurd hcon (by simp)
        · have hnh := frame_not_huge (m.mem t1 page.i1) hb1
          simp only [unmap, p4_page_eq, p3_page_eq, p2_page_eq, p1_page_eq,
            r4, r3, r2, r1, f4, f3, f2]
          cases hfr : (m.mem t1 page.i1).frame with
          | error e =>
            cases e with
            | FrameNotPresent => simp [frameErrorToUnmap]
            | HugeFrame => exact absurd hfr hnh
          | ok fr => simp

/-- Witness for the amended C7 at a concrete input: in `M0` the walk of
page (1,0,0,0) stops at the zero root entry; both operations report
`PageNotMapped` and neither reports `ParentEntryHugePage`. -/
theorem C7_amended_witness :
    (get_entry ⟨(0 : Fin 512)⟩ P0 M0 = .err .PageNotMapped →
      (unmap ⟨(0 : Fin 512)⟩ P0 M0).2 = .err .PageNotMapped) ∧
    (unmap ⟨(0 : Fin 512)⟩ P0 M0).2 ≠ .err .ParentEntryHugePage ∧
    get_entry ⟨(0 : Fin 512)⟩ P0 M0 ≠ .err .ParentEntryHugePage :=
  C7_unmap_lookup_errors_amended M0 0 P0 0 0 0 ⟨by decide, by decide⟩ (by decide)
    (by decide) (by decide) (by decide) (by decide) (by decide) (by decide)

/-- C4: allocation counts.  Starting from a hierarchy with no table on the
path of `page` beyond the root (the root entry is zero), a successful
`map_to(page, frame, ...)` with a 3-frame allocator consumes exactly the 3
frames f1, f2, f3 — one intermediate table per level 3, 2, 1 — succeeding
with an empty remainder; a subsequent `map_to` of the sibling page with the
same upper indices and a different leaf index `j` succeeds with the EMPTY
allocator, i.e. performs 0 further allocations, reusing those tables. -/
theorem C4_allocation_counts
    (m : Machine) (R : Fin 512) (page : Page4K) (frame frame' fl at' : Nat)
    (f1 f2 f3 : Nat) (j : Fin 512)
    (hrec : recInv m R) (hi4 : page.i4 ≠ R)
    (hempty : m.mem m.root page.i4 = ⟨0⟩)
    (hj : j ≠ page.i1)
    (hq1 : m.root ≠ f1) (hq2 : m.root ≠ f2) (hq3 : m.root ≠ f3)
    (h12 : f1 ≠ f2) (h13 : f1 ≠ f3) (h23 : f2 ≠ f3)
    (hc1 : f1 < 2 ^ 36) (hc2 : f2 < 2 ^ 36) (hc3 : f3 < 2 ^ 36)
    (hT : PageTableFlags.contains fl PageTableFlags.TABLE_OR_PAGE = true) :
    (map_to ⟨R⟩ page frame fl at' m [f1, f2, f3]).2.1 = [] ∧
    (map_to ⟨R⟩ page frame fl at' m [f1, f2, f3]).2.2 = .ok page ∧
    (map_to ⟨R⟩ (from_page_table_indices page.i4 page.i3 page.i2 j) frame' fl at'
        (map_to ⟨R⟩ page frame fl at' m [f1, f2, f3]).1 []).2.1 = [] ∧
    (map_to ⟨R⟩ (from_page_table_indices page.i4 page.i3 page.i2 j) frame' fl at'
        (map_to ⟨R⟩ page frame fl at' m [f1, f2, f3]).1 []).2.2 =
      .ok (from_page_table_indices page.i4 page.i3 page.i2 j) := by
  have hres4 : m.resolve (RecursivePageTable.p4_page ⟨R⟩ page) = some m.root := by
    rw [p4_page_eq]; exact resolve_rrrr m R hrec
  have h0 : (m.mem m.root page.i4).is_unused = true := by rw [hempty]; rfl
  set W1 := m.writeE m.root page.i4 (tableDesc f1) with hW1def
  set M1 := W1.zeroT f1 with hM1def
  set W2 := M1.writeE f1 page.i3 (tableDesc f2) with hW2def
  set M2 := W2.zeroT f2 with hM2def
  set W3 := M2.writeE f2 page.i2 (tableDesc f3) with hW3def
  set M3 := W3.zeroT f3 with hM3def
  set MF := M3.writeE f3 page.i1 (leafDesc frame fl at') with hMFdef
  have hrtW1 : W1.root = m.root := by rw [hW1def, writeE_root]
  have hrtM1 : M1.root = m.root := by rw [hM1def, zeroT_root, hrtW1]
  have hrtW2 : W2.root = m.root := by rw [hW2def, writeE_root, hrtM1]
  have hrtM2 : M2.root = m.root := by rw [hM2def, zeroT_root, hrtW2]
  have hrtW3 : W3.root = m.root := by rw [hW3def, writeE_root, hrtM2]
  have hrtM3 : M3.root = m.root := by rw [hM3def, zeroT_root, hrtW3]
  have hrtMF : MF.root = m.root := by rw [hMFdef, writeE_root, hrtM3]
  have hrecW1 : recInv W1 R := by
    rw [hW1def]; exact recInv_writeE m R hrec m.root page.i4 _ (Or.inr (Ne.symm hi4))
  have hrecM1 : recInv M1 R := by
    rw [hM1def]; exact recInv_zeroT W1 R hrecW1 f1 (by rw [hrtW1]; exact hq1)
  have hrecW2 : recInv W2 R := by
    rw [hW2def]
    exact recInv_writeE M1 R hrecM1 f1 page.i3 _ (Or.inl (by rw [hrtM1]; exact hq1))
  have hrecM2 : recInv M2 R := by
    rw [hM2def]; exact recInv_zeroT W2 R hrecW2 f2 (by rw [hrtW2]; exact hq2)
  have hrecW3 : recInv W3 R := by
    rw [hW3def]
    exact recInv_writeE M2 R hrecM2 f2 page.i2 _ (Or.inl (by rw [hrtM2]; exact hq2))
  have hrecM3 : recInv M3 R := by
    rw [hM3def]; exact recInv_zeroT W3 R hrecW3 f3 (by rw [hrtW3]; exact hq3)
  have hrecMF : recInv MF R := by
    rw [hMFdef]
    exact recInv_writeE M3 R hrecM3 f3 page.i1 _ (Or.inl (by rw [hrtM3]; exact hq3))
  have e1W1 : W1.mem m.root page.i4 = tableDesc f1 := by
    rw [hW1def]; exact writeE_mem_self m m.root page.i4 _
  have e1M1 : M1.mem m.root page.i4 = tableDesc f1 := by
    rw [hM1def, zeroT_mem_ne W1 f1 m.root page.i4 hq1, e1W1]
  have e1W2 : W2.mem m.root page.i4 = tableDesc f1 := by
    rw [hW2def, writeE_mem_ne_frame M1 f1 page.i3 _ m.root page.i4 hq1, e1M1]
  have e1M2 : M2.mem m.root page.i4 = tableDesc f1 := by
    rw [hM2def, zeroT_mem_ne W2 f2 m.root page.i4 hq2, e1W2]
  have e1W3 : W3.mem m.root page.i4 = tableDesc f1 := by
    rw [hW3def, writeE_mem_ne_frame M2 f2 page.i2 _ m.root page.i4 hq2, e1M2]
  have e1M3 : M3.mem m.root page.i4 = tableDesc f1 := by
    rw [hM3def, zeroT_mem_ne W3 f3 m.root page.i4 hq3, e1W3]
  have e1MF : MF.mem m.root page.i4 = tableDesc f1 := by
    rw [hMFdef, writeE_mem_ne_frame M3 f3 page.i1 _ m.root page.i4 hq3, e1M3]
  have e2W2 : W2.mem f1 page.i3 = tableDesc f2 := by
    rw [hW2def]; exact writeE_mem_self M1 f1 page.i3 _
  have e2M2 : M2.mem f1 page.i3 = tableDesc f2 := by
    rw [hM2def, zeroT_mem_ne W2 f2 f1 page.i3 h12, e2W2]
  have e2W3 : W3.mem f1 page.i3 = tableDesc f2 := by
    rw [hW3def, writeE_mem_ne_frame M2 f2 page.i2 _ f1 page.i3 h12, e2M2]
  have e2M3 : M3.mem f1 page.i3 = tableDesc f2 := by
    rw [hM3def, zeroT_mem_ne W3 f3 f1 page.i3 h13, e2W3]
  have e2MF : MF.mem f1 page.i3 = tableDesc f2 := by
    rw [hMFdef, writeE_mem_ne_frame M3 f3 page.i1 _ f1 page.i3 h13, e2M3]
  have e3W3 : W3.mem f2 page.i2 = tableDesc f3 := by
    rw [hW3def]; exact writeE_mem_self M2 f2 page.i2 _
  have e3M3 : M3.mem f2 page.i2 = tableDesc f3 := by
    rw [hM3def, zeroT_mem_ne W3 f3 f2 page.i2 h23, e3W3]
  have e3MF : MF.mem f2 page.i2 = tableDesc f3 := by
    rw [hMFdef, writeE_mem_ne_frame M3 f3 page.i1 _ f2 page.i2 h23, e3M3]
  have eM1f1 : M1.mem f1 page.i3 = ⟨0⟩ := by
    rw [hM1def]; exact zeroT_mem_self W1 f1 page.i3
  have eM2f2 : M2.mem f2 page.i2 = ⟨0⟩ := by
    rw [hM2def]; exact zeroT_mem_self W2 f2 page.i2
  have eM3f3 : M3.mem f3 page.i1 = ⟨0⟩ := by
    rw [hM3def]; exact zeroT_mem_self W3 f3 page.i1
  have eMFj : MF.mem f3 j = ⟨0⟩ := by
    rw [hMFdef, writeE_mem_ne_idx M3 f3 page.i1 _ f3 j hj, hM3def]
    exact zeroT_mem_self W3 f3 j
  have hres3 : W1.resolve (RecursivePageTable.p3_page ⟨R⟩ page) = some f1 := by
    rw [p3_page_eq,
      resolve_rrra_table W1 R hrecW1 page.i4
        (by rw [hrtW1, e1W1]; exact tableDesc_isTable f1 hc1),
      hrtW1, e1W1, tableDesc_eFrame f1 hc1]
  have hres2 : W2.resolve (RecursivePageTable.p2_page ⟨R⟩ page) = some f2 := by
    rw [p2_page_eq,
      resolve_rrab_table W2 R hrecW2 page.i4 page.i3
        (by rw [hrtW2, e1W2]; exact tableDesc_isTable f1 hc1)
        (by rw [hrtW2, e1W2, tableDesc_eFrame f1 hc1, e2W2]
            exact tableDesc_isTable f2 hc2),
      hrtW2, e1W2, tableDesc_eFrame f1 hc1, e2W2, tableDesc_eFrame f2 hc2]
  have hres1 : W3.resolve (RecursivePageTable.p1_page ⟨R⟩ page) = some f3 := by
    rw [p1_page_eq,
      resolve_rabc_table W3 R hrecW3 page.i4 page.i3 page.i2
        (by rw [hrtW3, e1W3]; exact tableDesc_isTable f1 hc1)
        (by rw [hrtW3, e1W3, tableDesc_eFrame f1 hc1, e2W3]
            exact tableDesc_isTable f2 hc2)
        (by rw [hrtW3, e1W3, tableDesc_eFrame f1 hc1, e2W3, tableDesc_eFrame f2 hc2,
              e3W3]
            exact tableDesc_isTable f3 hc3),
      hrtW3, e1W3, tableDesc_eFrame f1 hc1, e2W3, tableDesc_eFrame f2 hc2, e3W3,
      tableDesc_eFrame f3 hc3]
  have hstep3 : create_next_table m m.root page.i4
      (RecursivePageTable.p3_page ⟨R⟩ page) [f1, f2, f3] = (M1, [f2, f3], .ok f1) := by
    rw [cnt_created m m.root page.i4 _ f1 [f2, f3] h0, ← hW1def, hres3]
  have hstep2 : create_next_table M1 f1 page.i3
      (RecursivePageTable.p2_page ⟨R⟩ page) [f2, f3] = (M2, [f3], .ok f2) := by
    rw [cnt_created M1 f1 page.i3 _ f2 [f3] (by rw [eM1f1]; exact is_unused_zeroE),
      ← hW2def, hres2]
  have hstep1 : create_next_table M2 f2 page.i2
      (RecursivePageTable.p1_page ⟨R⟩ page) [f3] = (M3, [], .ok f3) := by
    rw [cnt_created M2 f2 page.i2 _ f3 [] (by rw [eM2f2]; exact is_unused_zeroE),
      ← hW3def, hres1]
  have hsf := set_frame_eq frame fl at' hT
  have hmap1 : map_to ⟨R⟩ page frame fl at' m [f1, f2, f3] = (MF, [], .ok page) := by
    simp [map_to, hres4, hstep3, hstep2, hstep1, eM3f3, is_unused_zeroE, hsf,
      ← hMFdef]
  have hres4s : MF.resolve
      (RecursivePageTable.p4_page ⟨R⟩ ⟨page.i4, page.i3, page.i2, j⟩) =
      some m.root := by
    rw [p4_page_eq, resolve_rrrr MF R hrecMF, hrtMF]
  have hres3s : MF.resolve
      (RecursivePageTable.p3_page ⟨R⟩ ⟨page.i4, page.i3, page.i2, j⟩) =
      some f1 := by
    show MF.resolve ⟨R, R, R, page.i4⟩ = some f1
    rw [resolve_rrra_table MF R hrecMF page.i4
        (by rw [hrtMF, e1MF]; exact tableDesc_isTable f1 hc1),
      hrtMF, e1MF, tableDesc_eFrame f1 hc1]
  have hres2s : MF.resolve
      (RecursivePageTable.p2_page ⟨R⟩ ⟨page.i4, page.i3, page.i2, j⟩) =
      some f2 := by
    show MF.resolve ⟨R, R, page.i4, page.i3⟩ = some f2
    rw [resolve_rrab_table MF R hrecMF page.i4 page.i3
        (by rw [hrtMF, e1MF]; exact tableDesc_isTable f1 hc1)
        (by rw [hrtMF, e1MF, tableDesc_eFrame f1 hc1, e2MF]
            exact tableDesc_isTable f2 hc2),
      hrtMF, e1MF, tableDesc_eFrame f1 hc1, e2MF, tableDesc_eFrame f2 hc2]
  have hres1s : MF.resolve
      (RecursivePageTable.p1_page ⟨R⟩ ⟨page.i4, page.i3, page.i2, j⟩) =
      some f3 := by
    show MF.resolve ⟨R, page.i4, page.i3, page.i2⟩ = some f3
    rw [resolve_rabc_table MF R hrecMF page.i4 page.i3 page.i2
        (by rw [hrtMF, e1MF]; exact tableDesc_isTable f1 hc1)
        (by rw [hrtMF, e1MF, tableDesc_eFrame f1 hc1, e2MF]
            exact tableDesc_isTable f2 hc2)
        (by rw [hrtMF, e1MF, tableDesc_eFrame f1 hc1, e2MF, tableDesc_eFrame f2 hc2,
              e3MF]
            exact tableDesc_isTable f3 hc3),
      hrtMF, e1MF, tableDesc_eFrame f1 hc1, e2MF, tableDesc_eFrame f2 hc2, e3MF,
      tableDesc_eFrame f3 hc3]
  have hstep3s : create_next_table MF m.root page.i4
      (RecursivePageTable.p3_page ⟨R⟩ ⟨page.i4, page.i3, page.i2, j⟩) [] =
      (MF, [], .ok f1) := by
    rw [cnt_existing MF m.root page.i4 _ []
      (by rw [e1MF]; exact tableDesc_is_unused f1)
      (by rw [e1MF]; exact tableDesc_is_block f1), hres3s]
  have hstep2s : create_next_table MF f1 page.i3
      (RecursivePageTable.p2_page ⟨R⟩ ⟨page.i4, page.i3, page.i2, j⟩) [] =
      (MF, [], .ok f2) := by
    rw [cnt_existing MF f1 page.i3 _ []
      (by rw [e2MF]; exact tableDesc_is_unused f2)
      (by rw [e2MF]; exact tableDesc_is_block f2), hres2s]
  have hstep1s : create_next_table MF f2 page.i2
      (RecursivePageTable.p1_page ⟨R⟩ ⟨page.i4, page.i3, page.i2, j⟩) [] =
      (MF, [], .ok f3) := by
    rw [cnt_existing MF f2 page.i2 _ []
      (by rw [e3MF]; exact tableDesc_is_unused f3)
      (by rw [e3MF]; exact tableDesc_is_block f3), hres1s]
  have hsf' := set_frame_eq frame' fl at' hT
  have hmap2 : map_to ⟨R⟩ (from_page_table_indices page.i4 page.i3 page.i2 j)
      frame' fl at' MF [] =
      (MF.writeE f3 j (leafDesc frame' fl at'), [],
        .ok (from_page_table_indices page.i4 page.i3 page.i2 j)) := by
    simp [map_to, from_page_table_indices, hres4s, hstep3s, hstep2s, hstep1s,
      eMFj, is_unused_zeroE, hsf']
  refine ⟨?_, ?_, ?_, ?_⟩
  · simp only [hmap1]
  · simp only [hmap1]
  · simp only [hmap1]
    rw [hmap2]
  · simp only [hmap1]
    rw [hmap2]

/-- Witness for C4 at a concrete input: in `M0` (empty but for the root)
mapping page (1,0,0,0) consumes exactly the 3 allocator frames 2, 3 and 4,
and mapping the sibling page (1,0,0,7) succeeds with an empty allocator. -/
theorem C4_witness :
    (map_to ⟨(0 : Fin 512)⟩ P0 5 0x403 0x300 M0 [2, 3, 4]).2.1 = [] ∧
    (map_to ⟨(0 : Fin 512)⟩ P0 5 0x403 0x300 M0 [2, 3, 4]).2.2 = .ok P0 ∧
    (map_to ⟨(0 : Fin 512)⟩ (from_page_table_indices P0.i4 P0.i3 P0.i2 7) 6 0x403 0x300
        (map_to ⟨(0 : Fin 512)⟩ P0 5 0x403 0x300 M0 [2, 3, 4]).1 []).2.1 = [] ∧
    (map_to ⟨(0 : Fin 512)⟩ (from_page_table_indices P0.i4 P0.i3 P0.i2 7) 6 0x403 0x300
        (map_to ⟨(0 : Fin 512)⟩ P0 5 0x403 0x300 M0 [2, 3, 4]).1 []).2.2 =
      .ok (from_page_table_indices P0.i4 P0.i3 P0.i2 7) :=
  C4_allocation_counts M0 0 P0 5 6 0x403 0x300 2 3 4 7 ⟨by decide, by decide⟩
    (by decide) (by decide) (by decide) (by decide) (by decide) (by decide)
    (by decide) (by decide) (by decide) (by decide) (by decide) (by decide)
    (by decide)
